import Mathlib

/-!
Verification development for the Project Samarth query pipeline
(backend/utils/nlp_processor.py, query_engine.py, data_handler.py).

The Python code is shallowly embedded: floats become rationals,
pandas tables become association-list rows, dictionaries become
association lists that preserve insertion order.  External
collaborators (the DataStore that loads and cleans CSV files, the
wall clock, the optional spaCy model) are passed in as parameters:
the DataStore hands the engine already-cleaned tables, mirroring the
fetch-and-clean step that the engine performs through DataHandler and
DataProcessor, and the current year is an explicit argument where the
code reads datetime.now().  The optional spaCy entity source is
modelled as absent (the basic-processing mode of NLPProcessor), which
affects recall only; the overlap-resolution theorem is proved for
arbitrary candidate lists, hence covers spaCy-produced candidates too.
-/

set_option maxRecDepth 16384

namespace Samarth

/-  Batteries marks the rational-number operations irreducible; the concrete
    evaluations below need them to unfold during elaboration. -/
section RatSemireducible
attribute [local semireducible] Rat.add Rat.mul Rat.sub Rat.inv Rat.ofScientific

/-! ## Character and string utilities (Python str.lower / strip / title,
    substring search, word boundaries of the re module) -/

def isDigitC (c : Char) : Bool :=
  decide ('0' ≤ c) && decide (c ≤ '9')

def isLowerC (c : Char) : Bool :=
  decide ('a' ≤ c) && decide (c ≤ 'z')

def isUpperC (c : Char) : Bool :=
  decide ('A' ≤ c) && decide (c ≤ 'Z')

def isAlphaC (c : Char) : Bool :=
  isLowerC c || isUpperC c

/-- Word character of the re module: [A-Za-z0-9_] (ASCII queries assumed). -/
def isWordC (c : Char) : Bool :=
  isAlphaC c || isDigitC c || c == '_'

/-- Whitespace stripped by Python str.strip. -/
def isSpaceC (c : Char) : Bool :=
  c == ' ' || c == '\t' || c == '\n' || c == '\r' || c == '\x0b' || c == '\x0c'

def charLower (c : Char) : Char :=
  if isUpperC c then Char.ofNat (c.toNat + 32) else c

def charUpper (c : Char) : Char :=
  if isLowerC c then Char.ofNat (c.toNat - 32) else c

def toLowerL (s : List Char) : List Char :=
  s.map charLower

/-- Python str.strip: drop whitespace from both ends. -/
def stripL (s : List Char) : List Char :=
  ((s.dropWhile isSpaceC).reverse.dropWhile isSpaceC).reverse

/-- Python str.title restricted to ASCII letters: a letter directly after a
    letter keeps its case-lowered form, any other letter is uppercased. -/
def titleAux : List Char → Bool → List Char
  | [], _ => []
  | c :: cs, prevAlpha =>
      (if prevAlpha then charLower c else charUpper c) :: titleAux cs (isAlphaC c)

def titleCase (s : String) : String :=
  String.mk (titleAux s.data false)

/-- Does the literal stand at the head of the text?  Returns the rest. -/
def removeLit? : List Char → List Char → Option (List Char)
  | [], s => some s
  | _ :: _, [] => none
  | p :: ps, c :: cs => if p == c then removeLit? ps cs else none

/-- Rest of the text after the first occurrence of the literal, if any
    (re.search of a plain literal). -/
def afterFirst? (lit : List Char) : List Char → Option (List Char)
  | [] => removeLit? lit []
  | c :: cs =>
      match removeLit? lit (c :: cs) with
      | some rest => some rest
      | none => afterFirst? lit cs

/-- Python substring containment (the in operator on str). -/
def containsL (lit s : List Char) : Bool :=
  (afterFirst? lit s).isSome

def containsS (lit : String) (s : List Char) : Bool :=
  containsL lit.data s

def strContainsB (sub s : String) : Bool :=
  containsL sub.data s.data

/-- Match of a regex of the shape lit1.*lit2.*…: each literal in order,
    occurrences disjoint (re.search semantics for this pattern class). -/
def seqMatchL : List (List Char) → List Char → Bool
  | [], _ => true
  | lit :: rest, s =>
      match afterFirst? lit s with
      | some r => seqMatchL rest r
      | none => false

/-- Split on newline characters; a .* of the re module does not cross a
    newline, so a lit1.*lit2 pattern must match inside one line. -/
def splitLinesL (s : List Char) : List (List Char) :=
  s.foldr
    (fun c acc =>
      match acc with
      | [] => if c == '\n' then [[], []] else [[c]]
      | l :: ls => if c == '\n' then [] :: l :: ls else (c :: l) :: ls)
    [[]]

/-- One alternation list of literal-sequence alternatives, matched against
    any line of the query. -/
def patMatches (alts : List (List String)) (q : List Char) : Bool :=
  (splitLinesL q).any fun line =>
    alts.any fun alt => seqMatchL (alt.map String.data) line

/-! ## Generic stable insertion sort (Python sorted / list.sort are stable) -/

def insertLe {α : Type} (le : α → α → Bool) (e : α) : List α → List α
  | [] => [e]
  | x :: xs => if le x e then x :: insertLe le e xs else e :: x :: xs

def sortLe {α : Type} (le : α → α → Bool) (l : List α) : List α :=
  l.foldl (fun acc e => insertLe le e acc) []

/-! ## NLPProcessor: data model and entity extraction -/

/-- Types of queries supported by the system (enum QueryType). -/
inductive QueryType where
  | comparison
  | ranking
  | trend_analysis
  | correlation
  | general_info
deriving DecidableEq, Repr

/-- The .value string of the enum member. -/
def QueryType.value : QueryType → String
  | .comparison => "comparison"
  | .ranking => "ranking"
  | .trend_analysis => "trend_analysis"
  | .correlation => "correlation"
  | .general_info => "general_info"

/-- Represents an extracted entity from a user query (dataclass
    ExtractedEntity); confidences are exact rationals. -/
structure ExtractedEntity where
  entity_type : String
  value : String
  confidence : ℚ
  start_pos : Nat
  end_pos : Nat
deriving DecidableEq, Repr

/-- Overlap of two character spans, exactly the test of
    NLPProcessor._remove_duplicate_entities:
    entity.start_pos < existing.end_pos and entity.end_pos > existing.start_pos. -/
def entOverlap (a b : ExtractedEntity) : Prop :=
  a.start_pos < b.end_pos ∧ b.start_pos < a.end_pos

instance (a b : ExtractedEntity) : Decidable (entOverlap a b) := by
  unfold entOverlap; infer_instance

def overlapB (a b : ExtractedEntity) : Bool :=
  decide (a.start_pos < b.end_pos) && decide (a.end_pos > b.start_pos)

def startLeB (a b : ExtractedEntity) : Bool :=
  decide (a.start_pos ≤ b.start_pos)

/-- One step of the filtering loop of _remove_duplicate_entities: scan the
    accepted list for the first overlap; replace it when the new entity has
    strictly higher confidence (list.remove removes the first equal element,
    which is the found one), otherwise drop the new entity; with no overlap,
    append. -/
def processEntity (filtered : List ExtractedEntity) (e : ExtractedEntity) :
    List ExtractedEntity :=
  match filtered.find? (fun ex => overlapB e ex) with
  | some ex =>
      if ex.confidence < e.confidence then filtered.erase ex ++ [e]
      else filtered
  | none => filtered ++ [e]

/-- NLPProcessor._remove_duplicate_entities: stable sort by start offset,
    then the scan above. -/
def removeDuplicateEntities (entities : List ExtractedEntity) :
    List ExtractedEntity :=
  (sortLe startLeB entities).foldl processEntity []

/-! ## NLPProcessor: gazetteers and pattern tables (_initialize_patterns) -/

/-- Indian states and union territories, in source order (the Python set
    literal; set iteration order is unspecified, but after the stable sort
    by start offset the resolver output does not depend on it for
    distinct-start candidates, and the overlap theorem is proved for every
    candidate order). -/
def indianStates : List String :=
  ["andhra pradesh", "arunachal pradesh", "assam", "bihar", "chhattisgarh",
   "goa", "gujarat", "haryana", "himachal pradesh", "jharkhand", "karnataka",
   "kerala", "madhya pradesh", "maharashtra", "manipur", "meghalaya",
   "mizoram", "nagaland", "odisha", "punjab", "rajasthan", "sikkim",
   "tamil nadu", "telangana", "tripura", "uttarakhand", "uttar pradesh",
   "west bengal", "delhi", "jammu and kashmir", "ladakh", "chandigarh",
   "dadra and nagar haveli", "daman and diu", "lakshadweep", "puducherry",
   "andaman and nicobar islands"]

/-- Common crops in India, in source order. -/
def indianCrops : List String :=
  ["rice", "wheat", "maize", "barley", "bajra", "jowar", "ragi",
   "sugarcane", "cotton", "jute", "tea", "coffee", "coconut",
   "groundnut", "sesame", "rape", "mustard", "linseed", "castor",
   "sunflower", "safflower", "niger", "soybean", "sesamum",
   "arhar", "moong", "urad", "masoor", "gram", "khesari",
   "onion", "potato", "sweet potato", "tapioca", "banana",
   "mango", "citrus", "apple", "grapes", "pomegranate",
   "cashew", "cardamom", "black pepper", "turmeric", "ginger",
   "coriander", "cumin", "fennel", "fenugreek"]

/-- Query type patterns of _initialize_patterns, each regex alternative
    written as its sequence of literals (lit1.*lit2 → [lit1, lit2]; the
    optional s of years? is dropped, an unanchored search needs only the
    stem).  The three regexes per type are flattened into one alternative
    list; classification only asks whether any of them matches. -/
def comparisonAlts : List (List String) :=
  [["compare", "between"], ["compare", "and"], ["difference between"],
   ["versus"], ["vs"],
   ["higher", "than"], ["lower", "than"], ["more", "than"], ["less", "than"],
   ["which", "better"], ["which", "worse"], ["which", "higher"],
   ["which", "lower"]]

def rankingAlts : List (List String) :=
  [["highest"], ["lowest"], ["maximum"], ["minimum"], ["top"], ["bottom"],
   ["best"], ["worst"],
   ["rank", "by"], ["sort", "by"], ["order", "by"],
   ["which", "most"], ["which", "least"], ["leading"], ["lagging"]]

def trendAlts : List (List String) :=
  [["trend"], ["pattern"], ["over", "year"], ["over", "time"],
   ["across", "year"],
   ["increase"], ["increase"], ["growth"], ["decline"], ["change"],
   ["from", "to"], ["between", "and", "year"], ["during", "period"]]

def correlationAlts : List (List String) :=
  [["correlat"], ["relationship"], ["connect"], ["link"], ["impact", "on"],
   ["affect"], ["influence"], ["depend"], ["relate"],
   ["due", "to"], ["because", "of"], ["result", "of"]]

/-- NLPProcessor._classify_query_type: first category (in the insertion
    order of the pattern dictionary) with a matching pattern wins. -/
def classifyQueryType (q : List Char) : QueryType :=
  if patMatches comparisonAlts q then .comparison
  else if patMatches rankingAlts q then .ranking
  else if patMatches trendAlts q then .trend_analysis
  else if patMatches correlationAlts q then .correlation
  else .general_info

/-! ## Gazetteer and year extraction (_extract_entities) -/

/-- Whole-word occurrence of the (word-charactered) pattern at position i:
    the test of re.search for backslash-b pat backslash-b. -/
def boundedMatchAt (pat s : List Char) (i : Nat) : Bool :=
  (match removeLit? pat (s.drop i) with | some _ => true | none => false)
  && (i == 0 || !(isWordC (s.getD (i - 1) ' ')))
  && !(isWordC (s.getD (i + pat.length) ' '))

/-- Keep the leftmost of each group of overlapping matches, the next search
    resuming at the match end: re.finditer yields non-overlapping matches. -/
def nonOverlapping : List (Nat × Nat) → Nat → List (Nat × Nat)
  | [], _ => []
  | (a, b) :: rest, lo =>
      if lo ≤ a then (a, b) :: nonOverlapping rest b
      else nonOverlapping rest lo

/-- All whole-word matches of the pattern (finditer). -/
def wordMatches (pat s : List Char) : List (Nat × Nat) :=
  nonOverlapping
    ((List.range (s.length + 1)).filterMap fun i =>
      if boundedMatchAt pat s i then some (i, i + pat.length) else none)
    0

/-- Whole-word match of the year regex (19|20) and two digits at i. -/
def yearMatchAt (s : List Char) (i : Nat) : Bool :=
  (match s.drop i with
   | a :: b :: c :: d :: _ =>
       ((a == '1' && b == '9') || (a == '2' && b == '0'))
       && isDigitC c && isDigitC d
   | _ => false)
  && (i == 0 || !(isWordC (s.getD (i - 1) ' ')))
  && !(isWordC (s.getD (i + 4) ' '))

def yearMatches (s : List Char) : List (Nat × Nat) :=
  nonOverlapping
    ((List.range (s.length + 1)).filterMap fun i =>
      if yearMatchAt s i then some (i, i + 4) else none)
    0

/-- Entities of one gazetteer: for each name, every whole-word occurrence,
    valued with the title-cased name. -/
def gazetteerEntities (etype : String) (conf : ℚ) (names : List String)
    (q : List Char) : List ExtractedEntity :=
  names.foldl
    (fun acc name =>
      acc ++ (wordMatches name.data q).map fun pr =>
        ⟨etype, titleCase name, conf, pr.1, pr.2⟩)
    []

def yearEntities (q : List Char) : List ExtractedEntity :=
  (yearMatches q).map fun pr =>
    ⟨"year", String.mk ((q.drop pr.1).take (pr.2 - pr.1)), 0.95, pr.1, pr.2⟩

/-- NLPProcessor._extract_entities in basic-processing mode (spaCy absent):
    state and crop gazetteer matches at confidence 0.9, years at 0.95,
    then overlap resolution. -/
def extractEntities (qLower : List Char) : List ExtractedEntity :=
  removeDuplicateEntities
    (gazetteerEntities "state" 0.9 indianStates qLower
      ++ gazetteerEntities "crop" 0.9 indianCrops qLower
      ++ yearEntities qLower)

/-! ## Parameter extraction (_extract_parameters) -/

/-- A time period: an integer number of years or an inclusive year pair
    (the int or tuple the pattern extractors return). -/
inductive TimePeriod where
  | tpInt (n : Nat)
  | tpPair (a b : Nat)
deriving DecidableEq, Repr

def takeDigitsL : List Char → List Char × List Char
  | [] => ([], [])
  | c :: cs =>
      if isDigitC c then
        match takeDigitsL cs with
        | (d, r) => (c :: d, r)
      else ([], c :: cs)

def digitsToNat (ds : List Char) : Nat :=
  ds.foldl (fun n c => n * 10 + (c.toNat - 48)) 0

/-- Exactly four digits at the head of the text. -/
def take4Digits? : List Char → Option (Nat × List Char)
  | a :: b :: c :: d :: r =>
      if isDigitC a && isDigitC b && isDigitC c && isDigitC d then
        some (digitsToNat [a, b, c, d], r)
      else none
  | _ => none

/-- Matcher for last/past (digits) years? at the head of the text. -/
def matchNYears (lit : String) (t : List Char) : Option TimePeriod :=
  (removeLit? lit.data t).bind fun r =>
    match takeDigitsL r with
    | (ds, r2) =>
        if ds.isEmpty then none
        else (removeLit? " year".data r2).map fun _ => .tpInt (digitsToNat ds)

/-- Matcher for the pattern four digits, a dash, four digits. -/
def matchDashPair (t : List Char) : Option TimePeriod :=
  (take4Digits? t).bind fun pr =>
    (removeLit? "-".data pr.2).bind fun r2 =>
      (take4Digits? r2).map fun pr2 => .tpPair pr.1 pr2.1

/-- Matcher for lit1, four digits, lit2, four digits (from … to …,
    between … and …). -/
def matchWordPair (l1 l2 : String) (t : List Char) : Option TimePeriod :=
  (removeLit? l1.data t).bind fun r =>
    (take4Digits? r).bind fun pr =>
      (removeLit? l2.data pr.2).bind fun r2 =>
        (take4Digits? r2).map fun pr2 => .tpPair pr.1 pr2.1

/-- Matcher for in and four digits. -/
def matchInYear (t : List Char) : Option TimePeriod :=
  (removeLit? "in ".data t).bind fun r =>
    (take4Digits? r).map fun pr => .tpInt pr.1

/-- re.search: try the matcher at every start position, leftmost wins. -/
def scanFirstTP (f : List Char → Option TimePeriod) : List Char →
    Option TimePeriod
  | [] => f []
  | c :: cs =>
      match f (c :: cs) with
      | some tp => some tp
      | none => scanFirstTP f cs

/-- The time_patterns dictionary of _extract_parameters, probed in
    insertion order, first match wins. -/
def extractTimePeriod (q : List Char) : Option TimePeriod :=
  (scanFirstTP (matchNYears "last ") q).orElse fun _ =>
  (scanFirstTP (matchNYears "past ") q).orElse fun _ =>
  (scanFirstTP matchDashPair q).orElse fun _ =>
  (scanFirstTP (matchWordPair "from " " to ") q).orElse fun _ =>
  (scanFirstTP (matchWordPair "between " " and ") q).orElse fun _ =>
  (scanFirstTP matchInYear q).orElse fun _ =>
  (if containsS "decade" q then some (.tpInt 10) else none).orElse fun _ =>
  (if containsS "last decade" q then some (.tpInt 10) else none)

/-- Metric buckets, probed in source order, plain substring containment. -/
def extractMetric (q : List Char) : Option String :=
  if ["production", "produce", "output"].any (fun w => containsS w q) then
    some "production"
  else if ["rainfall", "rain", "precipitation"].any (fun w => containsS w q) then
    some "rainfall"
  else if ["yield", "productivity"].any (fun w => containsS w q) then
    some "yield"
  else if ["area", "acreage"].any (fun w => containsS w q) then
    some "area"
  else none

/-- Aggregation buckets, probed in source order. -/
def extractAggregation (q : List Char) : Option String :=
  if ["average", "mean", "avg"].any (fun w => containsS w q) then some "mean"
  else if ["total", "sum"].any (fun w => containsS w q) then some "sum"
  else if ["maximum", "max", "highest"].any (fun w => containsS w q) then
    some "max"
  else if ["minimum", "min", "lowest"].any (fun w => containsS w q) then
    some "min"
  else none

/-- The parameters dictionary: at most the keys time_period, metric and
    aggregation. -/
structure Params where
  time_period : Option TimePeriod
  metric : Option String
  aggregation : Option String
deriving DecidableEq, Repr

/-- len(parameters): the number of keys present. -/
def Params.count (p : Params) : Nat :=
  (if p.time_period.isSome then 1 else 0)
  + (if p.metric.isSome then 1 else 0)
  + (if p.aggregation.isSome then 1 else 0)

def extractParameters (q : List Char) : Params :=
  ⟨extractTimePeriod q, extractMetric q, extractAggregation q⟩

/-! ## Intent and confidence (_generate_intent, _calculate_confidence) -/

/-- Append a value to the list stored under a key, creating the key at the
    back on first sight (Python defaultdict-style grouping with a dict). -/
def addToDict (d : List (String × List String)) (k v : String) :
    List (String × List String) :=
  if d.any (fun p => p.1 == k) then
    d.map fun p => if p.1 == k then (p.1, p.2 ++ [v]) else p
  else d ++ [(k, [v])]

def entityDict (es : List ExtractedEntity) : List (String × List String) :=
  es.foldl (fun acc e => addToDict acc e.entity_type e.value) []

def dictGet (d : List (String × List String)) (k : String) : List String :=
  (d.lookup k).getD []

/-- Python str.join. -/
def joinWith (sep : String) : List String → String
  | [] => ""
  | [a] => a
  | a :: rest => a ++ sep ++ joinWith sep rest

/-- NLPProcessor._generate_intent. -/
def generateIntent (qt : QueryType) (es : List ExtractedEntity) (ps : Params) :
    String :=
  let d := entityDict es
  let states := dictGet d "state"
  let crops := dictGet d "crop"
  let metric := ps.metric.getD "production"
  match qt with
  | .comparison =>
      if states.length ≥ 2 then
        "Compare " ++ metric ++ " between " ++ joinWith " and " states
      else if !crops.isEmpty && !states.isEmpty then
        "Compare " ++ crops.headD "" ++ " " ++ metric ++ " across states"
      else
        "Compare " ++ metric ++ " data"
  | .ranking =>
      if !crops.isEmpty then
        "Rank states by " ++ crops.headD "" ++ " " ++ metric
      else
        "Rank by " ++ metric
  | .trend_analysis =>
      if !crops.isEmpty && !states.isEmpty then
        "Analyze " ++ crops.headD "" ++ " " ++ metric ++ " trend in "
          ++ states.headD ""
      else if !crops.isEmpty then
        "Analyze " ++ crops.headD "" ++ " " ++ metric ++ " trend"
      else
        "Analyze " ++ metric ++ " trend"
  | .correlation =>
      "Analyze correlation between agricultural and meteorological data"
  | .general_info =>
      "General agricultural or meteorological information query"

/-- NLPProcessor._calculate_confidence. -/
def calculateConfidence (qt : QueryType) (es : List ExtractedEntity)
    (ps : Params) : ℚ :=
  let base : ℚ := 0.5
  let entityBoost : ℚ := min ((es.length : ℚ) * 0.1) 0.3
  let paramBoost : ℚ := min ((ps.count : ℚ) * 0.05) 0.15
  let typeBoost : ℚ := if qt ≠ QueryType.general_info then 0.1 else 0
  min (base + entityBoost + paramBoost + typeBoost) 1

/-- Complete analysis of a user query (dataclass QueryAnalysis). -/
structure QueryAnalysis where
  query_type : QueryType
  entities : List ExtractedEntity
  intent : String
  confidence : ℚ
  parameters : Params
deriving DecidableEq, Repr

/-- NLPProcessor.analyze_query. -/
def analyzeQuery (query : String) : QueryAnalysis :=
  let ql := stripL (toLowerL query.data)
  let qt := classifyQueryType ql
  let es := extractEntities ql
  let ps := extractParameters ql
  ⟨qt, es, generateIntent qt es ps, calculateConfidence qt es ps, ps⟩

/-! ## Tabular data model (pandas DataFrames as association-list rows) -/

/-- A cell value: a string, an exact rational standing for a numeric value,
    or a missing value (NaN). -/
inductive Val where
  | vStr (s : String)
  | vNum (q : ℚ)
  | vNull
deriving DecidableEq, Repr

/-- A row maps column names to cells; a column absent from the row reads as
    missing. -/
abbrev Row := List (String × Val)

def getCell (r : Row) (c : String) : Val :=
  (r.lookup c).getD Val.vNull

/-- A cleaned table: column names (already lowercased and underscored by the
    out-of-scope DataProcessor) and rows. -/
structure DFrame where
  cols : List String
  rows : List Row
deriving DecidableEq, Repr

def valToQ? : Val → Option ℚ
  | .vNum q => some q
  | _ => none

/-- Codepoint-wise lexicographic strict order on strings (Python str less
    than, pandas object ordering). -/
def charListLt : List Char → List Char → Bool
  | [], [] => false
  | [], _ :: _ => true
  | _ :: _, [] => false
  | a :: as, b :: bs =>
      if a.toNat < b.toNat then true
      else if b.toNat < a.toNat then false
      else charListLt as bs

/-- Total comparison used when pandas sorts group keys ascending.  Mixed
    numeric/string keys would raise in pandas and are unreachable from the
    mapper-produced plans; the cross-type cases below only make the order
    total. -/
def keyValLe : Val → Val → Bool
  | .vNull, _ => true
  | _, .vNull => false
  | .vNum a, .vNum b => decide (a ≤ b)
  | .vNum _, .vStr _ => true
  | .vStr _, .vNum _ => false
  | .vStr a, .vStr b => !(charListLt b.data a.data)

/-- Lexicographic order on composite group keys. -/
def keyLeB : List Val → List Val → Bool
  | [], _ => true
  | _ :: _, [] => false
  | a :: as, b :: bs => if a == b then keyLeB as bs else keyValLe a b

/-- Ascending cell order of sort_values with NaN placed last
    (na_position default). -/
def sortValsAsc : Val → Val → Bool
  | _, .vNull => true
  | .vNull, _ => false
  | .vNum a, .vNum b => decide (a ≤ b)
  | .vNum _, .vStr _ => true
  | .vStr _, .vNum _ => false
  | .vStr a, .vStr b => !(charListLt b.data a.data)

/-- Descending cell order of sort_values(ascending=False), NaN still last. -/
def sortValsDesc : Val → Val → Bool
  | _, .vNull => true
  | .vNull, _ => false
  | .vNum a, .vNum b => decide (b ≤ a)
  | .vNum _, .vStr _ => true
  | .vStr _, .vNum _ => false
  | .vStr a, .vStr b => !(charListLt a.data b.data)

def sortRowsByCol (df : DFrame) (col : String) (cmp : Val → Val → Bool) :
    DFrame :=
  ⟨df.cols, sortLe (fun r1 r2 => cmp (getCell r1 col) (getCell r2 col)) df.rows⟩

/-! ## QueryMapper (map_query_to_operations) -/

/-- A filter value: a list (OR semantics through isin) or a scalar; the
    mapper only ever builds lists, the scalar branch mirrors the isinstance
    test of _apply_filters. -/
inductive FilterVal where
  | multi (vs : List Val)
  | single (v : Val)
deriving DecidableEq, Repr

/-- The filters dictionary: entity filters in insertion order, plus the
    year_range key the mapper inserts after them. -/
structure Filters where
  items : List (String × FilterVal)
  year_range : Option (ℤ × ℤ)
deriving DecidableEq, Repr

structure AggSpec where
  column : String
  function : String
  group_by : List String
deriving DecidableEq, Repr

/-- An operation plan (the operations dictionary of
    QueryMapper.map_query_to_operations). -/
structure Operations where
  query_type : String
  datasets_needed : List String
  filters : Filters
  aggregations : List AggSpec
  joins : List String
  output_format : String
deriving DecidableEq, Repr

/-- The dataset_mappings table (datasets component; the key_columns
    component is never read by the pipeline). -/
def datasetMappings : List (String × List String) :=
  [("production", ["agriculture.crop_production",
                   "agriculture.state_wise_production"]),
   ("rainfall", ["meteorology.rainfall_data", "meteorology.monthly_rainfall"]),
   ("yield", ["agriculture.crop_production"]),
   ("area", ["agriculture.crop_production"])]

/-- Append one value under a key of the filters dictionary, creating the
    key at the back on first sight. -/
def addFilterVal (items : List (String × FilterVal)) (k : String) (v : Val) :
    List (String × FilterVal) :=
  if items.any (fun p => p.1 == k) then
    items.map fun p =>
      if p.1 == k then
        (p.1, match p.2 with
              | .multi vs => FilterVal.multi (vs ++ [v])
              | .single w => FilterVal.single w)
      else p
  else items ++ [(k, FilterVal.multi [v])]

/-- Python int() of a digit string (year entity values are digit runs). -/
def pyIntOfDigits (s : String) : Nat :=
  digitsToNat s.data

/-- The filter-building loop over the extracted entities. -/
def entityFilters (es : List ExtractedEntity) : List (String × FilterVal) :=
  es.foldl
    (fun acc e =>
      if e.entity_type == "state" then addFilterVal acc "state" (.vStr e.value)
      else if e.entity_type == "crop" then
        addFilterVal acc "crop" (.vStr e.value)
      else if e.entity_type == "year" then
        addFilterVal acc "year" (.vNum (pyIntOfDigits e.value))
      else acc)
    []

/-- QueryMapper.map_query_to_operations; currentYear stands for
    datetime.datetime.now().year. -/
def mapQueryToOperations (currentYear : ℤ) (analysis : QueryAnalysis) :
    Operations :=
  let metric := analysis.parameters.metric.getD "production"
  let datasets := ((datasetMappings.lookup metric).getD [])
  let yr : Option (ℤ × ℤ) :=
    match analysis.parameters.time_period with
    | some (.tpInt n) => some (currentYear - (n : ℤ), currentYear)
    | some (.tpPair a b) => some ((a : ℤ), (b : ℤ))
    | none => none
  let aggType := analysis.parameters.aggregation.getD "sum"
  let groupBy :=
    if analysis.query_type = QueryType.trend_analysis then ["state", "year"]
    else ["state"]
  let outFmt :=
    if analysis.query_type = QueryType.trend_analysis
        ∨ analysis.query_type = QueryType.correlation then "chart"
    else if analysis.query_type = QueryType.ranking then "ranked_table"
    else "table"
  { query_type := analysis.query_type.value
    datasets_needed := datasets
    filters := ⟨entityFilters analysis.entities, yr⟩
    aggregations := [⟨metric, aggType, groupBy⟩]
    joins := []
    output_format := outFmt }

/-! ## ExecutionEngine: filtering (_apply_filters) -/

def applyFilterItem (df : DFrame) (item : String × FilterVal) : DFrame :=
  if df.cols.contains item.1 then
    match item.2 with
    | .multi vs =>
        ⟨df.cols, df.rows.filter fun r => vs.contains (getCell r item.1)⟩
    | .single v =>
        ⟨df.cols, df.rows.filter fun r => getCell r item.1 == v⟩
  else df

/-- The year_range branch of the filter loop: inclusive bounds on a year
    column when present; a missing or non-numeric year cell never passes
    (NaN comparisons are False in pandas). -/
def applyYearRange (df : DFrame) : Option (ℤ × ℤ) → DFrame
  | none => df
  | some (s, e) =>
      if df.cols.contains "year" then
        ⟨df.cols, df.rows.filter fun r =>
          match getCell r "year" with
          | .vNum y => decide ((s : ℚ) ≤ y) && decide (y ≤ (e : ℚ))
          | _ => false⟩
      else df

/-- QueryEngine._apply_filters: an empty table passes through; other filter
    keys than year_range apply only when the column exists. -/
def applyFilters (df : DFrame) (fs : Filters) : DFrame :=
  if df.rows.isEmpty then df
  else applyYearRange (fs.items.foldl applyFilterItem df) fs.year_range

/-! ## ExecutionEngine: aggregation (_perform_aggregation) -/

/-- Aggregate the cells of one column: NaN cells are skipped, as pandas
    sum/mean/max/min/count do; unrecognized function names fall back to
    sum, as the scalar branch of the code does explicitly.  Non-numeric
    metric cells never arise from the tables the claims touch. -/
def aggValues (fn : String) (cells : List Val) : Val :=
  let vals := cells.filterMap valToQ?
  if fn == "count" then .vNum (vals.length : ℚ)
  else if fn == "mean" then
    match vals with
    | [] => .vNull
    | _ => .vNum ((vals.foldl (· + ·) 0) / (vals.length : ℚ))
  else if fn == "max" then
    match vals with
    | [] => .vNull
    | v :: vs => .vNum (vs.foldl max v)
  else if fn == "min" then
    match vals with
    | [] => .vNull
    | v :: vs => .vNum (vs.foldl min v)
  else .vNum (vals.foldl (· + ·) 0)

def rowKeyOf (keys : List String) (r : Row) : List Val :=
  keys.map (getCell r)

/-- First-seen distinct group keys. -/
def distinctRowKeys (rows : List Row) (keys : List String) : List (List Val) :=
  rows.foldl
    (fun acc r =>
      let k := rowKeyOf keys r
      if acc.contains k then acc else acc ++ [k])
    []

/-- df.groupby(keys)[col].agg(fn).reset_index(): rows with a missing group
    key are dropped (groupby dropna), group keys are sorted ascending
    (groupby sort default), and the result has the key columns plus the
    aggregated column. -/
def groupAgg (df : DFrame) (keys : List String) (col fn : String) : DFrame :=
  let rows := df.rows.filter fun r => (rowKeyOf keys r).all (· != Val.vNull)
  let ks := sortLe keyLeB (distinctRowKeys rows keys)
  ⟨keys ++ [col],
   ks.map fun k =>
     keys.zip k ++
       [(col, aggValues fn
           ((rows.filter fun r => rowKeyOf keys r == k).map (getCell · col)))]⟩

/-- A named result: a table or a scalar aggregate. -/
inductive ResultVal where
  | table (t : DFrame)
  | scalar (v : Val)
deriving DecidableEq, Repr

def replaceDots (s : String) : String :=
  String.mk (s.data.map fun c => if c == '.' then '_' else c)

/-- Loop body of QueryEngine._perform_aggregation for one dataset: skip
    empty tables and tables without the aggregated column, group when the
    groupBy columns that exist are non-empty, post-process by query type
    (comparison keeps the grouped order, trend_analysis requires the year
    grouping and sorts by year, ranking sorts descending by the aggregated
    column), and compute one scalar when no grouping was requested. -/
def aggStep (spec : AggSpec) (queryType : String)
    (acc : List (String × ResultVal)) (pr : String × DFrame) :
    List (String × ResultVal) :=
  let df := pr.2
  if df.rows.isEmpty || !(df.cols.contains spec.column) then acc
  else
    let name := replaceDots pr.1
    if !spec.group_by.isEmpty then
      let valid := spec.group_by.filter df.cols.contains
      if !valid.isEmpty then
        if queryType == "comparison" then
          acc ++ [(name ++ "_grouped",
            .table (groupAgg df valid spec.column spec.function))]
        else if queryType == "trend_analysis" then
          if valid.contains "year" then
            acc ++ [(name ++ "_trend",
              .table (sortRowsByCol
                (groupAgg df valid spec.column spec.function)
                "year" sortValsAsc))]
          else acc
        else if queryType == "ranking" then
          acc ++ [(name ++ "_ranked",
            .table (sortRowsByCol
              (groupAgg df valid spec.column spec.function)
              spec.column sortValsDesc))]
        else
          acc ++ [(name ++ "_aggregated",
            .table (groupAgg df valid spec.column spec.function))]
      else acc
    else
      acc ++ [(name ++ "_total",
        .scalar (aggValues spec.function (df.rows.map (getCell · spec.column))))]

/-- QueryEngine._perform_aggregation over the loaded-and-filtered datasets
    in their loading order (dict insertion order). -/
def performAggregation (datasets : List (String × DFrame)) (spec : AggSpec)
    (queryType : String) : List (String × ResultVal) :=
  datasets.foldl (aggStep spec queryType) []

/-! ## ExecutionEngine: joins (_perform_joins) -/

/-- Columns present in every table. -/
def commonCols : List DFrame → List String
  | [] => []
  | d :: rest => rest.foldl (fun acc df => acc.filter df.cols.contains) d.cols

/-- Right-hand column renaming of the merge suffixes ('', '_y'): an
    overlapping non-key column of the right table gets _y appended. -/
def mergeRename (leftCols keys : List String) (c : String) : String :=
  if leftCols.contains c && !(keys.contains c) then c ++ "_y" else c

def rowsKeyEq (keys : List String) (ra rb : Row) : Bool :=
  keys.all fun k => getCell ra k == getCell rb k

/-- Outer merge of two tables on the given keys: matched row pairs carry
    both sides, unmatched left rows read NaN on the right columns (absent
    cells read as missing), unmatched right rows are appended.  Pandas
    additionally re-sorts an outer merge by key; no claim observes the
    joined row order, so the match order is kept here. -/
def outerMerge (a b : DFrame) (keys : List String) : DFrame :=
  let bCols := (b.cols.filter fun c => !(keys.contains c)).map
    (mergeRename a.cols keys)
  let renameB : Row → Row := fun rb =>
    rb.map fun p =>
      if keys.contains p.1 then p else (mergeRename a.cols keys p.1, p.2)
  let matched : List Row :=
    (a.rows.map fun ra =>
      let ms := b.rows.filter (rowsKeyEq keys ra)
      if ms.isEmpty then [ra]
      else ms.map fun rb => ra ++ renameB (rb.filter fun p => !(keys.contains p.1))).flatten
  let rightOnly : List Row :=
    (b.rows.filter fun rb => !(a.rows.any fun ra => rowsKeyEq keys ra rb)).map
      renameB
  ⟨a.cols ++ bCols, matched ++ rightOnly⟩

/-- QueryEngine._perform_joins: join keys are the part of [state, year]
    common to every table; with no common key the first table is returned
    unchanged (the join_specs argument is never read). -/
def performJoins (dfs : List DFrame) : DFrame :=
  match dfs with
  | [] => ⟨[], []⟩
  | [d] => d
  | d :: rest =>
      let common := commonCols (d :: rest)
      let keys := ["state", "year"].filter common.contains
      if keys.isEmpty then d
      else rest.foldl (fun acc df => outerMerge acc df keys) d

/-! ## ExecutionEngine: statistics and execution (_execute_operations) -/

/-- The result-set statistics; only total_records is ever read again (by
    the record-count clause of the answer), the date_range and per-column
    summary entries are carried to the caller unread. -/
structure Statistics where
  total_records : Nat
deriving DecidableEq, Repr

def totalRecords (data : List (String × ResultVal)) : Nat :=
  data.foldl
    (fun n pr => match pr.2 with | .table t => n + t.rows.length | _ => n) 0

structure Results where
  data : List (String × ResultVal)
  statistics : Statistics
deriving DecidableEq, Repr

/-- Insert or overwrite a key of a result dictionary. -/
def assocUpdate (d : List (String × ResultVal)) (kv : String × ResultVal) :
    List (String × ResultVal) :=
  if d.any (fun p => p.1 == kv.1) then
    d.map fun p => if p.1 == kv.1 then kv else p
  else d ++ [kv]

/-- The DataStore collaborator: cleaned tables by dataset path.  An absent
    or empty table is skipped by the load loop (fetch_data returning None,
    or an empty frame). -/
def loadDatasets (store : List (String × DFrame)) (needed : List String) :
    List (String × DFrame) :=
  needed.filterMap fun p =>
    match store.lookup p with
    | some df => if df.rows.isEmpty then none else some (p, df)
    | none => none

/-- QueryEngine._execute_operations: load, filter, aggregate, join only
    when more than one filtered table exists AND the plan lists joins,
    then statistics.  Dataset metadata (shapes, registry info) feeds only
    the citation block and is not modelled. -/
def executeOperations (store : List (String × DFrame)) (ops : Operations) :
    Results :=
  let datasets := loadDatasets store ops.datasets_needed
  if datasets.isEmpty then ⟨[], ⟨0⟩⟩
  else
    let filtered := datasets.map fun pr => (pr.1, applyFilters pr.2 ops.filters)
    let data1 := ops.aggregations.foldl
      (fun acc spec =>
        (performAggregation filtered spec ops.query_type).foldl assocUpdate acc)
      []
    let data2 :=
      if 1 < filtered.length ∧ ops.joins ≠ [] then
        assocUpdate data1
          ("joined", .table (performJoins (filtered.map (·.2))))
      else data1
    ⟨data2, ⟨totalRecords data2⟩⟩

/-! ## Number formatting (Python format specs ,.2f and .1f) -/

def natDigitsAux : Nat → Nat → List Char
  | 0, _ => []
  | fuel + 1, n =>
      if n < 10 then [Char.ofNat (48 + n)]
      else natDigitsAux fuel (n / 10) ++ [Char.ofNat (48 + n % 10)]

/-- Decimal digits of a natural number, most significant first. -/
def natDigits (n : Nat) : List Char :=
  natDigitsAux (n + 1) n

/-- Insert thousands separators: input and output are reversed digit
    lists. -/
def group3 : List Char → List Char
  | a :: b :: c :: d :: rest => a :: b :: c :: ',' :: group3 (d :: rest)
  | l => l

/-- Python str(n) for an int. -/
def pyStrNat (n : Nat) : String :=
  String.mk (natDigits n)

/-- Format n centi-units with two decimals and thousands separators. -/
def fmt2Nat (n : Nat) : String :=
  String.mk ((group3 (natDigits (n / 100)).reverse).reverse
    ++ ['.', Char.ofNat (48 + n % 100 / 10), Char.ofNat (48 + n % 100 % 10)])

/-- Python format spec ,.2f on an exact rational.  Rounding is to the
    nearest centi-unit; the claims only evaluate it on exact centi-values,
    where every rounding mode agrees. -/
def fmtComma2 (x : ℚ) : String :=
  if x < 0 then "-" ++ fmt2Nat (round (-x * 100)).toNat
  else fmt2Nat (round (x * 100)).toNat

def fmt1Nat (n : Nat) : String :=
  String.mk (natDigits (n / 10) ++ ['.', Char.ofNat (48 + n % 10)])

/-- Python format spec .1f (no separators). -/
def fmt1 (x : ℚ) : String :=
  if x < 0 then "-" ++ fmt1Nat (round (-x * 10)).toNat
  else fmt1Nat (round (x * 10)).toNat

/-! ## ResponseGenerator (_generate_…_answer, _generate_response) -/

/-- First result table whose key contains the marker (the dict scan of the
    answer generators, isinstance DataFrame plus marker in key). -/
def findResultTable (data : List (String × ResultVal)) (marker : String) :
    Option DFrame :=
  match data.find? fun p =>
      (match p.2 with | .table _ => true | _ => false)
        && strContainsB marker p.1 with
  | some (_, .table t) => some t
  | _ => none

/-- Column values in order of appearance, first occurrence kept
    (Series.unique). -/
def uniqueCells (t : DFrame) (c : String) : List Val :=
  t.rows.foldl
    (fun acc r =>
      let v := getCell r c
      if acc.contains v then acc else acc ++ [v])
    []

/-- Display of a cell inside an f-string.  The sentences of the claims only
    ever display string cells; numeric and missing cells are unreachable
    there. -/
def valShow : Val → String
  | .vStr s => s
  | .vNum q => fmt1 q
  | .vNull => "nan"

/-- The float comparison val1 > val2 of the comparison answer; cross-type
    comparisons would raise in Python and are unreachable from grouped
    tables. -/
def valGtB : Val → Val → Bool
  | .vNum a, .vNum b => decide (b < a)
  | .vStr a, .vStr b => charListLt b.data a.data
  | _, _ => false

/-- Format spec ,.2f applied to a cell; the aggregated cells it reaches are
    numeric. -/
def fmtCell2 : Val → String
  | .vNum q => fmtComma2 q
  | _ => "nan"

/-- Numeric reading of a cell for the trend arithmetic; the trend tables of
    the claims carry numeric metric cells, a non-numeric cell (which would
    propagate NaN in Python) reads 0 here and is unreachable. -/
def cellQ (r : Row) (c : String) : ℚ :=
  (valToQ? (getCell r c)).getD 0

def metricColumns (t : DFrame) : List String :=
  t.cols.filter fun c => !(["state", "year", "crop"].contains c)

def firstRowWhere (t : DFrame) (c : String) (v : Val) : Row :=
  (t.rows.filter fun r => getCell r c == v).headD []

/-- The entities dictionary of _generate_natural_answer: one value per
    entity type, a later entity overwriting an earlier one of the same
    type. -/
def entityMap (es : List ExtractedEntity) : List (String × String) :=
  es.foldl
    (fun acc e =>
      if acc.any (fun p => p.1 == e.entity_type) then
        acc.map fun p => if p.1 == e.entity_type then (p.1, e.value) else p
      else acc ++ [(e.entity_type, e.value)])
    []

/-- QueryEngine._generate_comparison_answer. -/
def generateComparisonAnswer (ents : List (String × String))
    (data : List (String × ResultVal)) : String :=
  match findResultTable data "grouped" with
  | none => "I couldn't find sufficient data to make the requested comparison."
  | some t =>
    if t.rows.isEmpty then
      "I couldn't find sufficient data to make the requested comparison."
    else
      let fallback :=
        "Here's the comparison data you requested. Please refer to the table below for detailed values."
      if (ents.lookup "state").isSome then
        match uniqueCells t "state" with
        | s1 :: s2 :: _ =>
            match metricColumns t with
            | m :: _ =>
                let val1 := getCell (firstRowWhere t "state" s1) m
                let val2 := getCell (firstRowWhere t "state" s2) m
                if valGtB val1 val2 then
                  "Based on the data, " ++ valShow s1 ++ " has higher " ++ m
                    ++ " (" ++ fmtCell2 val1 ++ ") compared to " ++ valShow s2
                    ++ " (" ++ fmtCell2 val2 ++ ")."
                else
                  "Based on the data, " ++ valShow s2 ++ " has higher " ++ m
                    ++ " (" ++ fmtCell2 val2 ++ ") compared to " ++ valShow s1
                    ++ " (" ++ fmtCell2 val1 ++ ")."
            | [] => fallback
        | _ => fallback
      else fallback

/-- QueryEngine._generate_ranking_answer. -/
def generateRankingAnswer (ents : List (String × String))
    (data : List (String × ResultVal)) : String :=
  match findResultTable data "ranked" with
  | none => "I couldn't find sufficient data to generate the requested ranking."
  | some t =>
    if t.rows.isEmpty then
      "I couldn't find sufficient data to generate the requested ranking."
    else
      match metricColumns t with
      | m :: _ =>
          let top := t.rows.headD []
          let bottom := t.rows.getLastD []
          let crop := (ents.lookup "crop").getD "crop"
          let base := "Based on the available data, "
          if t.cols.contains "state" then
            base ++ valShow (getCell top "state") ++ " has the highest " ++ m
              ++ " " ++ (if crop ≠ "crop" then "for " ++ crop ++ " " else "")
              ++ "(" ++ fmtCell2 (getCell top m) ++ "), while "
              ++ valShow (getCell bottom "state") ++ " has the lowest ("
              ++ fmtCell2 (getCell bottom m) ++ ")."
          else base
      | [] =>
          "Here's the ranking data you requested. Please refer to the table below for detailed information."

/-- QueryEngine._generate_trend_answer. -/
def generateTrendAnswer (ents : List (String × String))
    (data : List (String × ResultVal)) : String :=
  match findResultTable data "trend" with
  | none => "I couldn't find sufficient data to analyze the requested trend."
  | some t =>
    if t.rows.isEmpty then
      "I couldn't find sufficient data to analyze the requested trend."
    else
      let fallback :=
        "Here's the trend analysis data. Please refer to the chart and table below for detailed information."
      if t.cols.contains "year" then
        match metricColumns t with
        | m :: _ =>
            let firstV := cellQ (t.rows.headD []) m
            let lastV := cellQ (t.rows.getLastD []) m
            let crop := (ents.lookup "crop").getD "the metric"
            let state := (ents.lookup "state").getD ""
            let dir :=
              if firstV < lastV then "increasing"
              else if lastV < firstV then "decreasing"
              else "stable"
            let change : ℚ :=
              if firstV < lastV then (lastV - firstV) / firstV * 100
              else if lastV < firstV then (firstV - lastV) / firstV * 100
              else 0
            "The trend analysis shows that " ++ m ++ " for " ++ crop
              ++ (if state ≠ "" then " in " ++ state else "")
              ++ " has been " ++ dir ++ " over the analyzed period"
              ++ (if 0 < change then
                    ", with a change of approximately " ++ fmt1 change ++ "%"
                  else "")
              ++ "."
        | [] => fallback
      else fallback

def noDataSentence : String :=
  "I couldn't find relevant data to answer your query. Please try rephrasing your question or check if the requested data is available."

def recordsSentence (n : Nat) : String :=
  "\n\nThis analysis is based on " ++ pyStrNat n ++ " data records."

/-- QueryEngine._generate_natural_answer: the no-data sentence when the
    result dictionary is empty, otherwise the per-type answer joined with
    the record-count clause when records exist. -/
def generateNaturalAnswer (analysis : QueryAnalysis) (results : Results) :
    String :=
  if results.data.isEmpty then noDataSentence
  else
    let ents := entityMap analysis.entities
    let head :=
      match analysis.query_type with
      | .comparison => generateComparisonAnswer ents results.data
      | .ranking => generateRankingAnswer ents results.data
      | .trend_analysis => generateTrendAnswer ents results.data
      | .correlation =>
          "I've analyzed the correlation between the agricultural and meteorological data. Please refer to the detailed analysis below."
      | .general_info =>
          "Here's the information I found based on your query. Please refer to the data and visualizations below for detailed insights."
    if 0 < results.statistics.total_records then
      joinWith " " [head, recordsSentence results.statistics.total_records]
    else joinWith " " [head]

/-- The response object.  The formatted data tables, chart specifications
    and citations are carried to the caller unread by any claim, and the
    citation block depends on the wall clock and the on-disk registry; they
    are not modelled. -/
structure Response where
  success : Bool
  query : String
  intent : String
  confidence : ℚ
  answer : String
  cached : Bool
deriving DecidableEq, Repr

/-- QueryEngine._generate_response: success is unconditionally true on this
    path. -/
def generateResponse (query : String) (analysis : QueryAnalysis)
    (results : Results) : Response :=
  { success := true
    query := query
    intent := analysis.intent
    confidence := analysis.confidence
    answer := generateNaturalAnswer analysis results
    cached := false }

/-- QueryEngine.process_query on the cache-miss path: analyze, map,
    execute, respond.  The result-cache lookup is modelled as a miss (the
    cache store itself is verified below through cachePut); the enclosing
    try/except only fires on exceptions, which this total model has no
    counterpart of. -/
def processQuery (store : List (String × DFrame)) (currentYear : ℤ)
    (query : String) : Response :=
  let analysis := analyzeQuery query
  let ops := mapQueryToOperations currentYear analysis
  let results := executeOperations store ops
  generateResponse query analysis results

/-! ## ResultCache (DataHandler.cache_query_result) -/

/-- A cache entry: the write timestamp and the stored payload (held
    opaque; the query_params copy stored alongside is never read by the
    eviction logic). -/
structure CacheEntry where
  timestamp : ℚ
  result : String
deriving DecidableEq, Repr

/-- Dictionary insert/overwrite: an existing key keeps its position, a new
    key goes to the back (Python dict semantics). -/
def insertCache (cache : List (String × CacheEntry)) (k : String)
    (e : CacheEntry) : List (String × CacheEntry) :=
  if cache.any (fun p => p.1 == k) then
    cache.map fun p => if p.1 == k then (k, e) else p
  else cache ++ [(k, e)]

def tsLe (p q : String × CacheEntry) : Bool :=
  decide (p.2.timestamp ≤ q.2.timestamp)

/-- DataHandler.cache_query_result: insert, then when the map exceeds 100
    entries delete the (size − 100) oldest-by-timestamp keys.  The Python
    del removes the single entry of a key; the filter below removes every
    entry of that key and agrees with it on the duplicate-free key lists a
    dict guarantees. -/
def cachePut (cache : List (String × CacheEntry)) (k : String)
    (e : CacheEntry) : List (String × CacheEntry) :=
  let c := insertCache cache k e
  if 100 < c.length then
    let oldest := (sortLe tsLe c).take (c.length - 100)
    oldest.foldl (fun acc p => acc.filter fun q => q.1 != p.1) c
  else c

/-! ## Concrete example data used by the claim instances -/

/-- The two-row production table of spec Example 1 (no year column). -/
def exampleRows : List Row :=
  [[("state", Val.vStr "Punjab"), ("crop", Val.vStr "Rice"),
    ("production", Val.vNum 11000)],
   [("state", Val.vStr "Haryana"), ("crop", Val.vStr "Rice"),
    ("production", Val.vNum 8500)]]

def exampleTable : DFrame :=
  ⟨["state", "crop", "production"], exampleRows⟩

def exampleStore : List (String × DFrame) :=
  [("agriculture.crop_production", exampleTable)]

/-- A second production table that also carries a year column. -/
def yearTable : DFrame :=
  ⟨["state", "year", "production"],
   [[("state", Val.vStr "Punjab"), ("year", Val.vNum 2020),
     ("production", Val.vNum 5)]]⟩

def twoTableStore : List (String × DFrame) :=
  [("agriculture.crop_production", exampleTable),
   ("agriculture.state_wise_production", yearTable)]

/-- A trend table whose first and last metric values are equal and
    nonzero. -/
def flatTrendTable : DFrame :=
  ⟨["state", "year", "production"],
   [[("state", Val.vStr "Punjab"), ("year", Val.vNum 2000),
     ("production", Val.vNum 5)],
    [("state", Val.vStr "Punjab"), ("year", Val.vNum 2001),
     ("production", Val.vNum 5)]]⟩

def flatTrendData : List (String × ResultVal) :=
  [("agriculture_crop_production_trend", ResultVal.table flatTrendTable)]

/-- A rising trend table (10 to 15 over two years). -/
def risingTrendTable : DFrame :=
  ⟨["state", "year", "production"],
   [[("state", Val.vStr "Punjab"), ("year", Val.vNum 2000),
     ("production", Val.vNum 10)],
    [("state", Val.vStr "Punjab"), ("year", Val.vNum 2001),
     ("production", Val.vNum 15)]]⟩

def risingTrendData : List (String × ResultVal) :=
  [("agriculture_crop_production_trend", ResultVal.table risingTrendTable)]

/-- A three-state table for a ranking instance. -/
def rankDatasets : List (String × DFrame) :=
  [("agriculture.crop_production",
    ⟨["state", "production"],
     [[("state", Val.vStr "Assam"), ("production", Val.vNum 3)],
      [("state", Val.vStr "Bihar"), ("production", Val.vNum 9)],
      [("state", Val.vStr "Kerala"), ("production", Val.vNum 6)]]⟩)]

def rankSpec : AggSpec :=
  ⟨"production", "sum", ["state"]⟩

/-- The ranked table the ranking aggregation produces from rankDatasets. -/
def rankResultTable : DFrame :=
  ⟨["state", "production"],
   [[("state", Val.vStr "Bihar"), ("production", Val.vNum 9)],
    [("state", Val.vStr "Kerala"), ("production", Val.vNum 6)],
    [("state", Val.vStr "Assam"), ("production", Val.vNum 3)]]⟩

/-- A hand-made plan whose joins list is non-empty (the mapper never
    produces one); used to exercise the join path of the engine. -/
def joinOps : Operations :=
  { query_type := "general_info"
    datasets_needed := ["agriculture.crop_production",
                        "agriculture.state_wise_production"]
    filters := ⟨[], none⟩
    aggregations := []
    joins := ["j"]
    output_format := "table" }

/-- A full cache: 100 distinct keys with increasing timestamps. -/
def exampleCache : List (String × CacheEntry) :=
  (List.range 100).map fun i => ("k" ++ pyStrNat i, ⟨(i : ℚ) + 1, "r"⟩)

/-! ## Lemmas about the stable insertion sort -/

theorem insertLe_perm {α : Type} (le : α → α → Bool) (e : α) (l : List α) :
    List.Perm (insertLe le e l) (e :: l) := by
  induction l with
  | nil => exact List.Perm.refl _
  | cons x xs ih =>
      unfold insertLe
      by_cases h : le x e = true
      · rw [if_pos h]
        exact (ih.cons x).trans (List.Perm.swap e x xs)
      · rw [if_neg h]

theorem insertLe_pairwise {α : Type} (le : α → α → Bool)
    (htot : ∀ a b, le a b || le b a)
    (htrans : ∀ a b c, le a b = true → le b c = true → le a c = true)
    (e : α) (l : List α) (hl : l.Pairwise (fun a b => le a b = true)) :
    (insertLe le e l).Pairwise (fun a b => le a b = true) := by
  induction l with
  | nil => simp [insertLe]
  | cons x xs ih =>
      rcases List.pairwise_cons.mp hl with ⟨hx, hxs⟩
      unfold insertLe
      by_cases h : le x e = true
      · rw [if_pos h]
        refine List.pairwise_cons.mpr ⟨?_, ih hxs⟩
        intro y hy
        have hy2 : y ∈ e :: xs := (insertLe_perm le e xs).mem_iff.mp hy
        rcases List.mem_cons.mp hy2 with rfl | hy'
        · exact h
        · exact hx y hy'
      · rw [if_neg h]
        have hex : le e x = true := by
          rcases Bool.or_eq_true_iff.mp (htot x e) with h' | h'
          · exact absurd h' h
          · exact h'
        refine List.pairwise_cons.mpr ⟨?_, hl⟩
        intro y hy
        rcases List.mem_cons.mp hy with rfl | hy'
        · exact hex
        · exact htrans e x y hex (hx y hy')

theorem foldl_insertLe_perm {α : Type} (le : α → α → Bool) (l : List α) :
    ∀ acc : List α,
      List.Perm (l.foldl (fun acc e => insertLe le e acc) acc) (acc ++ l) := by
  induction l with
  | nil => intro acc; simp
  | cons e rest ih =>
      intro acc
      have h1 := ih (insertLe le e acc)
      have h2 : List.Perm (insertLe le e acc ++ rest) ((e :: acc) ++ rest) :=
        (insertLe_perm le e acc).append_right rest
      have h3 : List.Perm ((e :: acc) ++ rest) (acc ++ e :: rest) :=
        List.perm_middle.symm
      simpa [List.foldl_cons] using (h1.trans h2).trans h3

theorem sortLe_perm {α : Type} (le : α → α → Bool) (l : List α) :
    List.Perm (sortLe le l) l := by
  simpa using foldl_insertLe_perm le l []

theorem sortLe_pairwise {α : Type} (le : α → α → Bool)
    (htot : ∀ a b, le a b || le b a)
    (htrans : ∀ a b c, le a b = true → le b c = true → le a c = true)
    (l : List α) :
    (sortLe le l).Pairwise (fun a b => le a b = true) := by
  suffices h : ∀ acc : List α, acc.Pairwise (fun a b => le a b = true) →
      (l.foldl (fun acc e => insertLe le e acc) acc).Pairwise
        (fun a b => le a b = true) from h [] List.Pairwise.nil
  induction l with
  | nil => intro acc hacc; simpa using hacc
  | cons e rest ih =>
      intro acc hacc
      simp only [List.foldl_cons]
      exact ih (insertLe le e acc) (insertLe_pairwise le htot htrans e acc hacc)

/-! ## Lemmas for the overlap resolver (claim C1) -/

theorem entOverlap_symm {a b : ExtractedEntity} (h : entOverlap a b) :
    entOverlap b a :=
  ⟨h.2, h.1⟩

theorem overlapB_iff (a b : ExtractedEntity) :
    overlapB a b = true ↔ entOverlap a b := by
  unfold overlapB entOverlap
  simp only [Bool.and_eq_true, decide_eq_true_eq]

/-- Two candidates that both start no later than e and both overlap e
    overlap each other: the accepted list meets at most one overlap per
    incoming entity. -/
theorem overlap_both {e x y : ExtractedEntity}
    (hx : x.start_pos ≤ e.start_pos) (hy : y.start_pos ≤ e.start_pos)
    (ox : entOverlap e x) (oy : entOverlap e y) : entOverlap x y :=
  ⟨lt_of_le_of_lt hx oy.1, lt_of_le_of_lt hy ox.1⟩

theorem processEntity_pairwise (filtered : List ExtractedEntity)
    (e : ExtractedEntity)
    (hpw : filtered.Pairwise (fun a b => ¬ entOverlap a b))
    (hstart : ∀ x ∈ filtered, x.start_pos ≤ e.start_pos) :
    ((processEntity filtered e).Pairwise (fun a b => ¬ entOverlap a b)) ∧
    (∀ x ∈ processEntity filtered e, x ∈ filtered ∨ x = e) := by
  unfold processEntity
  cases hfind : filtered.find? (fun ex => overlapB e ex) with
  | none =>
      refine ⟨?_, ?_⟩
      · refine List.pairwise_append.mpr ⟨hpw, List.pairwise_singleton _ _, ?_⟩
        intro a ha c hc
        have hce : c = e := List.mem_singleton.mp hc
        intro hov
        rw [hce] at hov
        have h1 : overlapB e a = true := (overlapB_iff e a).mpr (entOverlap_symm hov)
        exact (List.find?_eq_none.mp hfind a ha) h1
      · intro x hx
        rcases List.mem_append.mp hx with h | h
        · exact Or.inl h
        · exact Or.inr (List.mem_singleton.mp h)
  | some ex =>
      have hovex : entOverlap e ex := (overlapB_iff e ex).mp (List.find?_some hfind)
      have hmemex : ex ∈ filtered := List.mem_of_find?_eq_some hfind
      have hsymm : Symmetric (fun a b : ExtractedEntity => ¬ entOverlap a b) :=
        fun _ _ hab hba => hab (entOverlap_symm hba)
      by_cases hc : ex.confidence < e.confidence
      · dsimp only
        rw [if_pos hc]
        have hcross : ∀ a ∈ filtered.erase ex, ¬ entOverlap a e := by
          intro a ha hov
          have ha' : a ∈ filtered := List.mem_of_mem_erase ha
          have hax : entOverlap a ex :=
            overlap_both (hstart a ha') (hstart ex hmemex)
              (entOverlap_symm hov) hovex
          by_cases heq : a = ex
          · subst heq
            have h2 : 0 < (filtered.erase a).count a := List.count_pos_iff.mpr ha
            rw [List.count_erase_self] at h2
            have hdup : List.Duplicate a filtered :=
              List.duplicate_iff_two_le_count.mpr (by omega)
            have hsub : List.Sublist [a, a] filtered :=
              List.duplicate_iff_sublist.mp hdup
            have hpw2 := hpw.sublist hsub
            rcases List.pairwise_cons.mp hpw2 with ⟨hval, _⟩
            exact hval a (List.mem_singleton.mpr rfl) hax
          · exact (hpw.forall hsymm) ha' hmemex heq hax
        refine ⟨?_, ?_⟩
        · refine List.pairwise_append.mpr
            ⟨hpw.sublist (List.erase_sublist ex filtered),
             List.pairwise_singleton _ _, ?_⟩
          intro a ha c hc2
          have hce : c = e := List.mem_singleton.mp hc2
          rw [hce]
          exact hcross a ha
        · intro x hx
          rcases List.mem_append.mp hx with h | h
          · exact Or.inl (List.mem_of_mem_erase h)
          · exact Or.inr (List.mem_singleton.mp h)
      · dsimp only
        rw [if_neg hc]
        exact ⟨hpw, fun x hx => Or.inl hx⟩

theorem foldl_processEntity_pairwise (rest : List ExtractedEntity) :
    ∀ filtered : List ExtractedEntity,
    filtered.Pairwise (fun a b => ¬ entOverlap a b) →
    (∀ x ∈ filtered, ∀ y ∈ rest, x.start_pos ≤ y.start_pos) →
    rest.Pairwise (fun a b => a.start_pos ≤ b.start_pos) →
    (rest.foldl processEntity filtered).Pairwise (fun a b => ¬ entOverlap a b) := by
  induction rest with
  | nil =>
      intro filtered hpw _ _
      simpa using hpw
  | cons e rest' ih =>
      intro filtered hpw hstart hsort
      simp only [List.foldl_cons]
      rcases List.pairwise_cons.mp hsort with ⟨he, hsort'⟩
      obtain ⟨hpw', hmem⟩ := processEntity_pairwise filtered e hpw
        (fun x hx => hstart x hx e (List.mem_cons_self e rest'))
      refine ih _ hpw' ?_ hsort'
      intro x hx y hy
      rcases hmem x hx with h | h
      · exact hstart x h y (List.mem_cons_of_mem _ hy)
      · exact h ▸ he y hy

theorem removeDuplicateEntities_pairwise (entities : List ExtractedEntity) :
    (removeDuplicateEntities entities).Pairwise (fun a b => ¬ entOverlap a b) := by
  unfold removeDuplicateEntities
  refine foldl_processEntity_pairwise _ [] List.Pairwise.nil (by simp) ?_
  have h := sortLe_pairwise startLeB
    (fun a b => by
      unfold startLeB
      rcases Nat.le_total a.start_pos b.start_pos with h | h <;> simp [h])
    (fun a b c hab hbc => by
      unfold startLeB at *
      simp only [decide_eq_true_eq] at *
      omega)
    entities
  exact h.imp fun hab => by
    simpa [startLeB, decide_eq_true_eq] using hab

/-- Claim C1: after overlap resolution, the entity list produced by
    analyze_query never contains two entities whose character spans
    overlap; the resolver scans candidates sorted by start offset and on
    overlap with an already-accepted entity keeps the one with higher
    confidence, ties keeping the earlier-accepted one. -/
theorem analyzeQuery_entities_no_overlap (q : String) :
    ((analyzeQuery q).entities).Pairwise (fun a b => ¬ entOverlap a b) := by
  simp only [analyzeQuery, extractEntities]
  exact removeDuplicateEntities_pairwise _

/-! ## Claim C4: the confidence formula -/

/-- Claim C4: the confidence of every analyzed query equals
    0.5 + min(0.1 times the entity count, 0.3) + min(0.05 times the
    parameter count, 0.15) + (0.1 when the query type is not general_info),
    clipped to 1.0; for queries yielding zero entities and zero parameters
    it lies in [0.5, 0.6]. -/
theorem analyzeQuery_confidence_formula (q : String) :
    (analyzeQuery q).confidence
      = min (0.5 + min (((analyzeQuery q).entities.length : ℚ) * 0.1) 0.3
          + min (((analyzeQuery q).parameters.count : ℚ) * 0.05) 0.15
          + (if (analyzeQuery q).query_type ≠ QueryType.general_info
             then 0.1 else 0)) 1
    ∧ ((analyzeQuery q).entities = [] → (analyzeQuery q).parameters.count = 0 →
        (0.5 : ℚ) ≤ (analyzeQuery q).confidence
          ∧ (analyzeQuery q).confidence ≤ 0.6) := by
  constructor
  · simp only [analyzeQuery, calculateConfidence]
  · intro h1 h2
    simp only [analyzeQuery, calculateConfidence] at h1 h2 ⊢
    rw [h1, h2]
    norm_num
    by_cases hq : classifyQueryType (stripL (toLowerL q.data))
        = QueryType.general_info <;> simp [hq] <;> norm_num

/-- Witness for C4 at the empty query: zero entities, zero parameters, and
    the confidence bounds delivered by the claim theorem. -/
theorem analyzeQuery_confidence_formula_witness :
    (analyzeQuery "").entities = [] ∧ (analyzeQuery "").parameters.count = 0
    ∧ (0.5 : ℚ) ≤ (analyzeQuery "").confidence
    ∧ (analyzeQuery "").confidence ≤ 0.6 := by
  have h1 : (analyzeQuery "").entities = [] := by decide
  have h2 : (analyzeQuery "").parameters.count = 0 := by decide
  have h := (analyzeQuery_confidence_formula "").2 h1 h2
  exact ⟨h1, h2, h.1, h.2⟩

/-! ## Claim C7: spec Example 1 (the comparison answer) -/

/-- Claim C7: the comparison query over the rows (Punjab, Rice, 11000) and
    (Haryana, Rice, 8500), grouped by state under sum, yields an answer
    naming Punjab with 11,000.00 before Haryana with 8,500.00. -/
theorem comparison_example_answer :
    (processQuery exampleStore 2026
        "Compare rice production between Punjab and Haryana").answer
      = "Based on the data, Punjab has higher production (11,000.00) compared to Haryana (8,500.00). \n\nThis analysis is based on 2 data records."
    ∧ ∃ pre mid post : String,
        (processQuery exampleStore 2026
            "Compare rice production between Punjab and Haryana").answer
          = pre ++ "Punjab" ++ mid ++ "Haryana" ++ post
        ∧ strContainsB "11,000.00" mid = true
        ∧ strContainsB "8,500.00" post = true := by
  have hans : (processQuery exampleStore 2026
      "Compare rice production between Punjab and Haryana").answer
      = "Based on the data, Punjab has higher production (11,000.00) compared to Haryana (8,500.00). \n\nThis analysis is based on 2 data records." := by
    decide
  refine ⟨hans, "Based on the data, ",
    " has higher production (11,000.00) compared to ",
    " (8,500.00). \n\nThis analysis is based on 2 data records.", ?_,
    by decide, by decide⟩
  rw [hans]
  decide

/-! ## Claim C2: the join guard and the join keys -/

/-- Claim C2 counterexample: a mapper-produced plan that loads two tables
    (so more than one filtered table exists) produces no joined table —
    the plan carries an empty joins list, so the guard of
    _execute_operations never fires. -/
theorem join_guard_counterexample :
    1 < (loadDatasets twoTableStore
          (mapQueryToOperations 2026 (analyzeQuery "")).datasets_needed).length
    ∧ (executeOperations twoTableStore
          (mapQueryToOperations 2026 (analyzeQuery ""))).data.lookup "joined"
        = none :=
  ⟨by decide, by decide⟩

theorem lookup_update_map (t : List (String × ResultVal)) (k : String)
    (v : ResultVal) (h : t.any (fun p => p.1 == k) = true) :
    (t.map (fun p => if p.1 == k then (k, v) else p)).lookup k = some v := by
  induction t with
  | nil => simp at h
  | cons a t ih =>
      obtain ⟨a1, a2⟩ := a
      by_cases ha : (a1 == k) = true
      · rw [List.map_cons]
        rw [show (if ((a1, a2).1 == k) = true then (k, v) else (a1, a2)) = (k, v)
          from if_pos ha]
        simp [List.lookup]
      · have ha' : (a1 == k) = false := by
          cases hb : (a1 == k) with
          | true => exact absurd hb ha
          | false => rfl
        have hka : (k == a1) = false :=
          beq_eq_false_iff_ne.mpr fun hk =>
            (beq_eq_false_iff_ne.mp ha') hk.symm
        have ht : t.any (fun p => p.1 == k) = true := by
          rcases List.any_eq_true.mp h with ⟨p, hp, hpk⟩
          rcases List.mem_cons.mp hp with rfl | hp'
          · exact absurd hpk (by simp [ha'])
          · exact List.any_eq_true.mpr ⟨p, hp', hpk⟩
        rw [List.map_cons]
        rw [show (if ((a1, a2).1 == k) = true then (k, v) else (a1, a2)) = (a1, a2)
          from if_neg (by simp [ha'])]
        simp only [List.lookup, hka]
        exact ih ht

theorem lookup_append_new (t : List (String × ResultVal)) (k : String)
    (v : ResultVal) (h : t.any (fun p => p.1 == k) = false) :
    (t ++ [(k, v)]).lookup k = some v := by
  induction t with
  | nil => simp [List.lookup]
  | cons a t ih =>
      obtain ⟨a1, a2⟩ := a
      have ha : (a1 == k) = false := by
        cases hb : (a1 == k) with
        | false => rfl
        | true =>
            have hany : ((⟨a1, a2⟩ :: t).any fun p => p.1 == k) = true :=
              List.any_eq_true.mpr ⟨(a1, a2), List.mem_cons_self _ t, hb⟩
            rw [h] at hany
            exact absurd hany (by simp)
      have hka : (k == a1) = false :=
        beq_eq_false_iff_ne.mpr fun hk => (beq_eq_false_iff_ne.mp ha) hk.symm
      have ht : t.any (fun p => p.1 == k) = false := by
        cases hb : t.any (fun p => p.1 == k) with
        | false => rfl
        | true =>
            rcases List.any_eq_true.mp hb with ⟨p, hp, hpk⟩
            have hany : ((⟨a1, a2⟩ :: t).any fun p => p.1 == k) = true :=
              List.any_eq_true.mpr ⟨p, List.mem_cons_of_mem _ hp, hpk⟩
            rw [h] at hany
            exact absurd hany (by simp)
      simp only [List.cons_append, List.lookup, hka]
      exact ih ht

theorem lookup_assocUpdate (d : List (String × ResultVal)) (k : String)
    (v : ResultVal) : (assocUpdate d (k, v)).lookup k = some v := by
  unfold assocUpdate
  by_cases h : d.any (fun p => p.1 == k) = true
  · rw [if_pos h]
    exact lookup_update_map d k v h
  · have h' : d.any (fun p => p.1 == k) = false := by
      cases hb : d.any (fun p => p.1 == k) with
      | true => exact absurd hb h
      | false => rfl
    rw [if_neg h]
    exact lookup_append_new d k v h'

/-- Claim C2 amended: the engine outer-joins only when more than one
    filtered table exists AND the plan's joins list is non-empty — and the
    mapper always emits an empty joins list; when the join does run, its
    keys are the part of [state, year] common to every table, and with no
    common key the first table is returned unchanged. -/
theorem execute_join_guard_and_keys :
    (∀ (cy : ℤ) (analysis : QueryAnalysis),
        (mapQueryToOperations cy analysis).joins = [])
    ∧ (∀ (store : List (String × DFrame)) (ops : Operations),
        1 < (loadDatasets store ops.datasets_needed).length →
        ops.joins ≠ [] →
        (executeOperations store ops).data.lookup "joined"
          = some (.table (performJoins
              (((loadDatasets store ops.datasets_needed).map
                  (fun pr => (pr.1, applyFilters pr.2 ops.filters))).map
                (fun pr => pr.2)))))
    ∧ (∀ (d : DFrame) (rest : List DFrame), rest ≠ [] →
        ["state", "year"].filter (commonCols (d :: rest)).contains = [] →
        performJoins (d :: rest) = d) := by
  refine ⟨fun cy analysis => rfl, ?_, ?_⟩
  · intro store ops hlen hjoins
    unfold executeOperations
    have hne : (loadDatasets store ops.datasets_needed).isEmpty = false := by
      cases h : loadDatasets store ops.datasets_needed with
      | nil => rw [h] at hlen; simp at hlen
      | cons a l => simp [List.isEmpty]
    dsimp only
    rw [if_neg (by simp [hne])]
    rw [if_pos ⟨by simpa using hlen, hjoins⟩]
    exact lookup_assocUpdate _ _ _
  · intro d rest hne hkeys
    cases rest with
    | nil => exact absurd rfl hne
    | cons r rs =>
        show (let common := commonCols (d :: r :: rs)
              let keys := ["state", "year"].filter common.contains
              if keys.isEmpty then d
              else (r :: rs).foldl (fun acc df => outerMerge acc df keys) d) = d
        simp only [hkeys]
        rfl

/-- Witness for the C2 amended theorem: with a hand-made plan whose joins
    list is non-empty and two loadable tables, the joined table appears and
    is keyed on the common state column. -/
theorem execute_join_guard_and_keys_witness :
    1 < (loadDatasets twoTableStore joinOps.datasets_needed).length
    ∧ joinOps.joins ≠ []
    ∧ (executeOperations twoTableStore joinOps).data.lookup "joined"
        = some (.table (performJoins
            (((loadDatasets twoTableStore joinOps.datasets_needed).map
                (fun pr => (pr.1, applyFilters pr.2 joinOps.filters))).map
              (fun pr => pr.2)))) := by
  refine ⟨by decide, by decide, ?_⟩
  exact execute_join_guard_and_keys.2.1 twoTableStore joinOps (by decide)
    (by decide)

/-! ## Claim C3: the empty query at the core entry point -/

/-- Claim C3 counterexample: the empty query given to the core
    process_query returns success = true (with the generic no-data answer
    here), not success = false — the empty-query rejection is implemented
    in the HTTP route layer, before the core is reached. -/
theorem processQuery_empty_success_true :
    (processQuery [] 2026 "").success = true
    ∧ (processQuery [] 2026 "").answer = noDataSentence :=
  ⟨by decide, by decide⟩

/-- Claim C3 amended: for every data store and current year the core
    processes the empty query as a general_info query and returns
    success = true with a non-empty answer; no failure path is taken. -/
theorem processQuery_empty_amended (store : List (String × DFrame)) (cy : ℤ) :
    (processQuery store cy "").success = true
    ∧ (processQuery store cy "").answer ≠ "" := by
  constructor
  · rfl
  · show generateNaturalAnswer (analyzeQuery "")
        (executeOperations store (mapQueryToOperations cy (analyzeQuery "")))
        ≠ ""
    generalize executeOperations store (mapQueryToOperations cy (analyzeQuery ""))
      = results
    intro hcontra
    unfold generateNaturalAnswer at hcontra
    by_cases hd : results.data.isEmpty
    · rw [if_pos hd] at hcontra
      exact absurd hcontra (by decide)
    · rw [if_neg hd] at hcontra
      have hq : (analyzeQuery "").query_type = QueryType.general_info := by
        decide
      rw [hq] at hcontra
      by_cases hr : 0 < results.statistics.total_records
      · rw [if_pos hr] at hcontra
        simp only [joinWith] at hcontra
        have hlen := congrArg String.length hcontra
        rw [String.length_append, String.length_append] at hlen
        have h124 : ("Here\'s the information I found based on your query. Please refer to the data and visualizations below for detailed insights." : String).length = 124 := by
          decide
        rw [h124] at hlen
        simp at hlen
      · rw [if_neg hr] at hcontra
        simp only [joinWith] at hcontra
        exact absurd hcontra (by decide)

/-- Witness for the C3 amended theorem at the empty store. -/
theorem processQuery_empty_amended_witness :
    (processQuery [] 2026 "").success = true
    ∧ (processQuery [] 2026 "").answer ≠ "" :=
  processQuery_empty_amended [] 2026

/-! ## Claim C8: the year_range filter -/

/-- Claim C8 counterexample: the textual pair 2021-1999 is copied directly
    into year_range, producing an inclusive pair whose start exceeds its
    end. -/
theorem year_range_pair_counterexample :
    (mapQueryToOperations 2026 (analyzeQuery "2021-1999")).filters.year_range
      = some (2021, 1999)
    ∧ ¬ ((2021 : ℤ) ≤ 1999) :=
  ⟨by decide, by decide⟩

/-- Claim C8 amended: whenever year_range is present it is an inclusive
    pair; start ≤ end is guaranteed when the extracted time period is an
    integer (last/past N years, in YYYY, decade), while a textual pair is
    copied into year_range unchecked, in the order the text gave. -/
theorem year_range_amended (q : String) (cy s e : ℤ)
    (h : (mapQueryToOperations cy (analyzeQuery q)).filters.year_range
          = some (s, e)) :
    (∀ n, (analyzeQuery q).parameters.time_period = some (.tpInt n) → s ≤ e)
    ∧ ∀ a b, (analyzeQuery q).parameters.time_period = some (.tpPair a b) →
        s = (a : ℤ) ∧ e = (b : ℤ) := by
  simp only [mapQueryToOperations] at h
  constructor
  · intro n hn
    rw [hn] at h
    simp only [Option.some.injEq, Prod.mk.injEq] at h
    omega
  · intro a b hab
    rw [hab] at h
    simp only [Option.some.injEq, Prod.mk.injEq] at h
    exact ⟨h.1.symm, h.2.symm⟩

/-- Witness for the C8 amended theorem at the query last 5 years with
    current year 2026. -/
theorem year_range_amended_witness :
    (mapQueryToOperations 2026 (analyzeQuery "last 5 years")).filters.year_range
      = some (2021, 2026)
    ∧ (analyzeQuery "last 5 years").parameters.time_period
      = some (TimePeriod.tpInt 5)
    ∧ (2021 : ℤ) ≤ 2026 := by
  have h1 : (mapQueryToOperations 2026
      (analyzeQuery "last 5 years")).filters.year_range
      = some (2021, 2026) := by decide
  have h2 : (analyzeQuery "last 5 years").parameters.time_period
      = some (TimePeriod.tpInt 5) := by decide
  exact ⟨h1, h2, (year_range_amended "last 5 years" 2026 2021 2026 h1).1 5 h2⟩

/-! ## Claim C6: the trend answer -/

/-- Claim C6 counterexample: a non-empty trend table with a year column
    and a numeric metric column whose first and last values are equal and
    nonzero — the change clause is omitted from the answer although the
    first value is nonzero. -/
theorem trend_change_clause_counterexample :
    generateTrendAnswer [] flatTrendData
      = "The trend analysis shows that production for the metric has been stable over the analyzed period."
    ∧ cellQ (flatTrendTable.rows.headD []) "production" = 5
    ∧ (5 : ℚ) ≠ 0
    ∧ strContainsB "with a change" (generateTrendAnswer [] flatTrendData)
        = false :=
  ⟨by decide, by decide, by decide, by decide⟩

/-- Claim C6 amended: for a trend answer generated from a non-empty trend
    table with a year column and a numeric metric column, the direction
    compares the last value against the first (increasing, decreasing,
    stable); whenever the first value is nonzero the computed change
    equals the absolute difference over the first value times 100; and the
    change clause appears in the answer exactly when the computed change
    is strictly positive — not whenever the first value is nonzero. -/
theorem trend_answer_amended (ents : List (String × String))
    (data : List (String × ResultVal)) (t : DFrame) (m : String)
    (ms : List String) (f l : ℚ)
    (hfind : findResultTable data "trend" = some t)
    (hrows : t.rows.isEmpty = false)
    (hyear : t.cols.contains "year" = true)
    (hm : metricColumns t = m :: ms)
    (hf : f = cellQ (t.rows.headD []) m)
    (hl : l = cellQ (t.rows.getLastD []) m)
    (hf0 : f ≠ 0) :
    ((if f < l then (l - f) / f * 100
      else if l < f then (f - l) / f * 100 else 0) = |l - f| / f * 100)
    ∧ generateTrendAnswer ents data
        = "The trend analysis shows that " ++ m ++ " for "
          ++ ((ents.lookup "crop").getD "the metric")
          ++ (if (ents.lookup "state").getD "" ≠ "" then
                " in " ++ (ents.lookup "state").getD "" else "")
          ++ " has been "
          ++ (if f < l then "increasing"
              else if l < f then "decreasing" else "stable")
          ++ " over the analyzed period"
          ++ (if 0 < (if f < l then (l - f) / f * 100
                      else if l < f then (f - l) / f * 100 else 0) then
                ", with a change of approximately "
                ++ fmt1 (if f < l then (l - f) / f * 100
                         else if l < f then (f - l) / f * 100 else 0) ++ "%"
              else "")
          ++ "." := by
  constructor
  · rcases lt_trichotomy f l with h | h | h
    · rw [if_pos h, abs_of_pos (sub_pos.mpr h)]
    · rw [if_neg (by rw [h]; exact lt_irrefl l),
        if_neg (by rw [h]; exact lt_irrefl l), h]
      simp
    · rw [if_neg (not_lt.mpr (le_of_lt h)), if_pos h,
        abs_of_neg (sub_neg.mpr h), neg_sub]
  · unfold generateTrendAnswer
    rw [hfind]
    dsimp only
    rw [if_neg (by rw [hrows]; exact Bool.false_ne_true)]
    rw [if_pos hyear]
    rw [hm]
    dsimp only
    rw [← hf, ← hl]

/-- Witness for the C6 amended theorem on the rising trend table: the
    change clause appears with a 50.0 percent change. -/
theorem trend_answer_amended_witness :
    findResultTable risingTrendData "trend" = some risingTrendTable
    ∧ (10 : ℚ) ≠ 0
    ∧ ((if (10 : ℚ) < 15 then ((15 : ℚ) - 10) / 10 * 100
        else if (15 : ℚ) < 10 then ((10 : ℚ) - 15) / 10 * 100 else 0)
        = |(15 : ℚ) - 10| / 10 * 100)
    ∧ generateTrendAnswer [] risingTrendData
        = "The trend analysis shows that production for the metric has been increasing over the analyzed period, with a change of approximately 50.0%." := by
  have h := trend_answer_amended [] risingTrendData risingTrendTable
    "production" [] 10 15 (by decide) (by decide) (by decide) (by decide)
    (by decide) (by decide) (by decide)
  refine ⟨by decide, by decide, h.1, ?_⟩
  rw [h.2]
  decide

/-! ## Claim C10: trend aggregation without a year column -/

theorem applyFilterItem_cols (df : DFrame) (item : String × FilterVal) :
    (applyFilterItem df item).cols = df.cols := by
  obtain ⟨c, fv⟩ := item
  unfold applyFilterItem
  by_cases h : df.cols.contains (c, fv).1 = true
  · rw [if_pos h]
    cases fv <;> rfl
  · rw [if_neg h]

theorem applyYearRange_cols (df : DFrame) (yr : Option (ℤ × ℤ)) :
    (applyYearRange df yr).cols = df.cols := by
  cases yr with
  | none => rfl
  | some se =>
      obtain ⟨s, e⟩ := se
      unfold applyYearRange
      dsimp only
      by_cases h : df.cols.contains "year" = true
      · rw [if_pos h]
      · rw [if_neg h]

theorem applyFilters_cols (df : DFrame) (fs : Filters) :
    (applyFilters df fs).cols = df.cols := by
  unfold applyFilters
  by_cases h : df.rows.isEmpty = true
  · rw [if_pos h]
  · rw [if_neg h]
    have hfold : ∀ (l : List (String × FilterVal)) (d : DFrame),
        d.cols = df.cols → (l.foldl applyFilterItem d).cols = df.cols := by
      intro l
      induction l with
      | nil => intro d hd; simpa using hd
      | cons a t ih =>
          intro d hd
          simp only [List.foldl_cons]
          exact ih _ ((applyFilterItem_cols d a).trans hd)
    exact (applyYearRange_cols _ _).trans (hfold fs.items df rfl)

/-- A trend aggregation step contributes nothing for a table without a
    year column: the code path appends only when year survives into the
    effective groupBy. -/
theorem aggStep_trend_no_year (spec : AggSpec)
    (acc : List (String × ResultVal)) (pr : String × DFrame)
    (hgb : spec.group_by ≠ [])
    (hy : pr.2.cols.contains "year" = false) :
    aggStep spec "trend_analysis" acc pr = acc := by
  obtain ⟨name, df⟩ := pr
  unfold aggStep
  dsimp only
  by_cases hrow : (df.rows.isEmpty || !(df.cols.contains spec.column)) = true
  · rw [if_pos hrow]
  · rw [if_neg hrow]
    by_cases hgb2 : (!spec.group_by.isEmpty) = true
    · rw [if_pos hgb2]
      by_cases hv : (!(spec.group_by.filter df.cols.contains).isEmpty) = true
      · rw [if_pos hv]
        rw [if_neg (by decide : ¬ (("trend_analysis" : String) == "comparison") = true)]
        rw [if_pos (by decide : (("trend_analysis" : String) == "trend_analysis") = true)]
        have hnm : (spec.group_by.filter df.cols.contains).contains "year"
            = false := by
          cases hb : (spec.group_by.filter df.cols.contains).contains "year" with
          | false => rfl
          | true =>
              have hmem : "year" ∈ spec.group_by.filter df.cols.contains := by
                simpa using hb
              have := (List.mem_filter.mp hmem).2
              rw [hy] at this
              exact absurd this (by simp)

        rw [if_neg (by rw [hnm]; exact Bool.false_ne_true)]
      · rw [if_neg hv]
    · exact absurd (by simpa using hgb2) hgb

/-- Claim C10 counterexample: the trend query over a store whose only
    table lacks a year column yields the global no-relevant-data sentence
    of _generate_natural_answer, not the trend-specific fallback of
    _generate_trend_answer. -/
theorem trend_no_year_counterexample :
    (processQuery exampleStore 2026 "rice production trend").answer
      = noDataSentence
    ∧ noDataSentence
      ≠ "I couldn't find sufficient data to analyze the requested trend." :=
  ⟨by decide, by decide⟩

/-- Claim C10 amended: a trend_analysis aggregation silently skips every
    dataset without a year column, and when no loaded dataset has one the
    result dictionary is empty, so the answer is the global
    no-relevant-data sentence (the trend-specific fallback sentence is
    never reached). -/
theorem trend_no_year_amended (store : List (String × DFrame)) (cy : ℤ)
    (q : String)
    (htrend : (analyzeQuery q).query_type = QueryType.trend_analysis)
    (hyear : ∀ p ∈ loadDatasets store
        (mapQueryToOperations cy (analyzeQuery q)).datasets_needed,
        p.2.cols.contains "year" = false) :
    (executeOperations store (mapQueryToOperations cy (analyzeQuery q))).data
      = []
    ∧ (processQuery store cy q).answer = noDataSentence := by
  have hqt : (mapQueryToOperations cy (analyzeQuery q)).query_type
      = "trend_analysis" := by
    simp only [mapQueryToOperations, htrend]
    rfl
  have haggs : (mapQueryToOperations cy (analyzeQuery q)).aggregations
      = [⟨(analyzeQuery q).parameters.metric.getD "production",
          (analyzeQuery q).parameters.aggregation.getD "sum",
          ["state", "year"]⟩] := by
    simp only [mapQueryToOperations, htrend]
    rfl
  have hjoins : (mapQueryToOperations cy (analyzeQuery q)).joins = [] := rfl
  have hdata : (executeOperations store
      (mapQueryToOperations cy (analyzeQuery q))).data = [] := by
    unfold executeOperations
    by_cases hde : (loadDatasets store
        (mapQueryToOperations cy (analyzeQuery q)).datasets_needed).isEmpty
        = true
    · rw [if_pos hde]
    · rw [if_neg hde]
      dsimp only
      rw [haggs, hqt, hjoins]
      simp only [List.foldl_cons, List.foldl_nil]
      have hperf : performAggregation
          ((loadDatasets store
              (mapQueryToOperations cy (analyzeQuery q)).datasets_needed).map
            (fun pr => (pr.1, applyFilters pr.2
              (mapQueryToOperations cy (analyzeQuery q)).filters)))
          ⟨(analyzeQuery q).parameters.metric.getD "production",
            (analyzeQuery q).parameters.aggregation.getD "sum",
            ["state", "year"]⟩ "trend_analysis" = [] := by
        unfold performAggregation
        have hstep : ∀ p ∈ (loadDatasets store
            (mapQueryToOperations cy (analyzeQuery q)).datasets_needed).map
              (fun pr => (pr.1, applyFilters pr.2
                (mapQueryToOperations cy (analyzeQuery q)).filters)),
            p.2.cols.contains "year" = false := by
          intro p hp
          rcases List.mem_map.mp hp with ⟨orig, horig, rfl⟩
          rw [applyFilters_cols]
          exact hyear orig horig
        generalize (loadDatasets store
            (mapQueryToOperations cy (analyzeQuery q)).datasets_needed).map
              (fun pr => (pr.1, applyFilters pr.2
                (mapQueryToOperations cy (analyzeQuery q)).filters)) = l
            at hstep
        induction l with
        | nil => rfl
        | cons a t ih =>
            simp only [List.foldl_cons]
            rw [aggStep_trend_no_year _ _ _ (by simp)
              (hstep a (List.mem_cons_self a t))]
            exact ih (fun p hp => hstep p (List.mem_cons_of_mem a hp))
      rw [hperf]
      simp only [List.foldl_nil]
      rw [if_neg (by intro hc; exact hc.2 rfl)]
  refine ⟨hdata, ?_⟩
  simp only [processQuery, generateResponse]
  unfold generateNaturalAnswer
  rw [hdata]
  rfl

/-- Witness for the C10 amended theorem at the query rice production trend
    over a store with a single year-less table. -/
theorem trend_no_year_amended_witness :
    (analyzeQuery "rice production trend").query_type
      = QueryType.trend_analysis
    ∧ (∀ p ∈ loadDatasets exampleStore
        (mapQueryToOperations 2026
          (analyzeQuery "rice production trend")).datasets_needed,
        p.2.cols.contains "year" = false)
    ∧ (processQuery exampleStore 2026 "rice production trend").answer
        = noDataSentence := by
  have h1 : (analyzeQuery "rice production trend").query_type
      = QueryType.trend_analysis := by decide
  have h2 : ∀ p ∈ loadDatasets exampleStore
      (mapQueryToOperations 2026
        (analyzeQuery "rice production trend")).datasets_needed,
      p.2.cols.contains "year" = false := by decide
  exact ⟨h1, h2,
    (trend_no_year_amended exampleStore 2026 "rice production trend" h1 h2).2⟩

/-! ## Claim C9: ranking output order -/

theorem charListLt_false_trans : ∀ l1 l2 l3 : List Char,
    charListLt l1 l2 = false → charListLt l2 l3 = false →
    charListLt l1 l3 = false := by
  intro l1
  induction l1 with
  | nil =>
      intro l2 l3 h1 h2
      cases l2 with
      | nil =>
          cases l3 with
          | nil => rfl
          | cons c cs => exact absurd h2 (by simp [charListLt])
      | cons b bs => exact absurd h1 (by simp [charListLt])
  | cons a as ih =>
      intro l2 l3 h1 h2
      cases l3 with
      | nil => rfl
      | cons c cs =>
          cases l2 with
          | nil => exact absurd h2 (by simp [charListLt])
          | cons b bs =>
              unfold charListLt at h1 h2 ⊢
              by_cases hab : a.toNat < b.toNat
              · rw [if_pos hab] at h1; exact absurd h1 (by simp)
              · rw [if_neg hab] at h1
                by_cases hbc : b.toNat < c.toNat
                · rw [if_pos hbc] at h2; exact absurd h2 (by simp)
                · rw [if_neg hbc] at h2
                  rw [if_neg (by omega : ¬ a.toNat < c.toNat)]
                  by_cases hba : b.toNat < a.toNat
                  · rw [if_pos (by omega : c.toNat < a.toNat)]
                  · rw [if_neg hba] at h1
                    by_cases hcb : c.toNat < b.toNat
                    · rw [if_pos (by omega : c.toNat < a.toNat)]
                    · rw [if_neg hcb] at h2
                      by_cases hca : c.toNat < a.toNat
                      · rw [if_pos hca]
                      · rw [if_neg hca]
                        exact ih bs cs h1 h2

theorem charListLt_total : ∀ l1 l2 : List Char,
    charListLt l1 l2 = false ∨ charListLt l2 l1 = false := by
  intro l1
  induction l1 with
  | nil =>
      intro l2
      cases l2 with
      | nil => exact Or.inl rfl
      | cons b bs => exact Or.inr rfl
  | cons a as ih =>
      intro l2
      cases l2 with
      | nil => exact Or.inl rfl
      | cons b bs =>
          by_cases hab : a.toNat < b.toNat
          · refine Or.inr ?_
            unfold charListLt
            rw [if_neg (by omega : ¬ b.toNat < a.toNat), if_pos hab]
          · by_cases hba : b.toNat < a.toNat
            · refine Or.inl ?_
              unfold charListLt
              rw [if_neg hab, if_pos hba]
            · rcases ih bs with h | h
              · refine Or.inl ?_
                unfold charListLt
                rw [if_neg hab, if_neg hba]
                exact h
              · refine Or.inr ?_
                unfold charListLt
                rw [if_neg hba, if_neg hab]
                exact h

theorem sortValsDesc_total (a b : Val) :
    (sortValsDesc a b || sortValsDesc b a) = true := by
  cases a with
  | vNull => cases b <;> simp [sortValsDesc]
  | vNum x =>
      cases b with
      | vNull => simp [sortValsDesc]
      | vNum y =>
          simp only [sortValsDesc, Bool.or_eq_true, decide_eq_true_eq]
          exact le_total y x
      | vStr s => simp [sortValsDesc]
  | vStr s =>
      cases b with
      | vNull => simp [sortValsDesc]
      | vNum y => simp [sortValsDesc]
      | vStr u =>
          simp only [sortValsDesc, Bool.or_eq_true, Bool.not_eq_true']
          exact charListLt_total s.data u.data

theorem sortValsDesc_trans (a b c : Val)
    (h1 : sortValsDesc a b = true) (h2 : sortValsDesc b c = true) :
    sortValsDesc a c = true := by
  cases a <;> cases b <;> cases c <;>
      simp only [sortValsDesc, decide_eq_true_eq, Bool.not_eq_true'] at h1 h2 ⊢ <;>
      first
        | rfl
        | exact h1
        | exact h2
        | exact le_trans h2 h1
        | exact charListLt_false_trans _ _ _ h1 h2
        | exact h1.elim
        | exact h2.elim
        | exact absurd h1 Bool.false_ne_true
        | exact absurd h2 Bool.false_ne_true

theorem sortRowsByCol_desc_pairwise (t : DFrame) (col : String) :
    ((sortRowsByCol t col sortValsDesc).rows.map
        (fun r => getCell r col)).Pairwise
      (fun a b => ∀ x y : ℚ, a = Val.vNum x → b = Val.vNum y → y ≤ x) := by
  unfold sortRowsByCol
  dsimp only
  have h := sortLe_pairwise
    (fun r1 r2 => sortValsDesc (getCell r1 col) (getCell r2 col))
    (fun r1 r2 => sortValsDesc_total _ _)
    (fun r1 r2 r3 h1 h2 => sortValsDesc_trans _ _ _ h1 h2)
    t.rows
  rw [List.pairwise_map]
  refine h.imp ?_
  intro r1 r2 hle x y hx hy
  rw [hx, hy] at hle
  simpa [sortValsDesc] using hle

/-- The ranking step either leaves the accumulator unchanged, appends one
    descending-sorted grouped table, or appends one scalar total. -/
theorem aggStep_ranking_shape (spec : AggSpec)
    (acc : List (String × ResultVal)) (pr : String × DFrame) :
    aggStep spec "ranking" acc pr = acc
    ∨ (∃ name df,
        aggStep spec "ranking" acc pr
          = acc ++ [(name, .table (sortRowsByCol
              (groupAgg df (spec.group_by.filter df.cols.contains)
                spec.column spec.function) spec.column sortValsDesc))])
    ∨ (∃ name v, aggStep spec "ranking" acc pr
          = acc ++ [(name, .scalar v)]) := by
  obtain ⟨nm, df⟩ := pr
  unfold aggStep
  dsimp only
  by_cases h1 : (df.rows.isEmpty || !(df.cols.contains spec.column)) = true
  · rw [if_pos h1]; exact Or.inl rfl
  · rw [if_neg h1]
    by_cases h2 : (!spec.group_by.isEmpty) = true
    · rw [if_pos h2]
      by_cases h3 : (!(spec.group_by.filter df.cols.contains).isEmpty) = true
      · rw [if_pos h3]
        rw [if_neg (by decide :
          ¬ (("ranking" : String) == "comparison") = true)]
        rw [if_neg (by decide :
          ¬ (("ranking" : String) == "trend_analysis") = true)]
        rw [if_pos (by decide : (("ranking" : String) == "ranking") = true)]
        exact Or.inr (Or.inl ⟨replaceDots nm ++ "_ranked", df, rfl⟩)
      · rw [if_neg h3]; exact Or.inl rfl
    · rw [if_neg h2]
      exact Or.inr (Or.inr ⟨replaceDots nm ++ "_total", _, rfl⟩)

/-- Claim C9: every table the ranking aggregation emits has its rows
    sorted non-increasing in the aggregated metric column (the
    sort_values(ascending=False) step). -/
theorem ranking_rows_sorted_desc (datasets : List (String × DFrame))
    (spec : AggSpec) (k : String) (t : DFrame)
    (hmem : (k, ResultVal.table t)
        ∈ performAggregation datasets spec "ranking") :
    (t.rows.map (fun r => getCell r spec.column)).Pairwise
      (fun a b => ∀ x y : ℚ, a = Val.vNum x → b = Val.vNum y → y ≤ x) := by
  have key : ∀ acc : List (String × ResultVal),
      (k, ResultVal.table t) ∈ datasets.foldl (aggStep spec "ranking") acc →
      (k, ResultVal.table t) ∈ acc
      ∨ ∃ df, t = sortRowsByCol
          (groupAgg df (spec.group_by.filter df.cols.contains)
            spec.column spec.function) spec.column sortValsDesc := by
    clear hmem
    induction datasets with
    | nil => intro acc h; exact Or.inl (by simpa using h)
    | cons p ds ih =>
        intro acc h
        simp only [List.foldl_cons] at h
        rcases ih (aggStep spec "ranking" acc p) h with hacc | hdf
        · rcases aggStep_ranking_shape spec acc p with heq | ⟨name, df, heq⟩
            | ⟨name, v, heq⟩
          · rw [heq] at hacc; exact Or.inl hacc
          · rw [heq] at hacc
            rcases List.mem_append.mp hacc with h' | h'
            · exact Or.inl h'
            · have heq2 := List.mem_singleton.mp h'
              have h2 := congrArg Prod.snd heq2
              simp only at h2
              refine Or.inr ⟨df, ?_⟩
              injection h2
          · rw [heq] at hacc
            rcases List.mem_append.mp hacc with h' | h'
            · exact Or.inl h'
            · have heq2 := List.mem_singleton.mp h'
              have h2 := congrArg Prod.snd heq2
              simp only at h2
              exact absurd h2 (by simp)
        · exact Or.inr hdf
  rcases key [] (by simpa [performAggregation] using hmem) with h | ⟨df, ht⟩
  · simp at h
  · rw [ht]
    exact sortRowsByCol_desc_pairwise _ _

/-- Witness for C9 on a three-state table: the ranked result is the
    descending table Bihar 9, Kerala 6, Assam 3, whose metric cells are
    pairwise non-increasing. -/
theorem ranking_rows_sorted_desc_witness :
    (("agriculture_crop_production_ranked", ResultVal.table rankResultTable)
        ∈ performAggregation rankDatasets rankSpec "ranking")
    ∧ (rankResultTable.rows.map
        (fun r => getCell r rankSpec.column)).Pairwise
      (fun a b => ∀ x y : ℚ, a = Val.vNum x → b = Val.vNum y → y ≤ x) := by
  have hmem : ("agriculture_crop_production_ranked",
      ResultVal.table rankResultTable)
      ∈ performAggregation rankDatasets rankSpec "ranking" := by decide
  exact ⟨hmem, ranking_rows_sorted_desc rankDatasets rankSpec _ _ hmem⟩

/-! ## Claim C5: cache eviction down to 100 entries -/

theorem filter_length_of_mem (c : List (String × CacheEntry))
    (x : String × CacheEntry)
    (hnd : (c.map Prod.fst).Nodup) (hx : x ∈ c) :
    (c.filter (fun q => q.1 != x.1)).length + 1 = c.length := by
  induction c with
  | nil => cases hx
  | cons a t ih =>
      rw [List.map_cons] at hnd
      rcases List.nodup_cons.mp hnd with ⟨ha1, ht⟩
      rcases List.mem_cons.mp hx with rfl | hxt
      · have hall : ∀ q ∈ t, (q.1 != x.1) = true := by
          intro q hq
          refine bne_iff_ne.mpr fun he => ha1 ?_
          rw [← he]
          exact List.mem_map_of_mem Prod.fst hq
        rw [List.filter_cons]
        rw [show (x.1 != x.1) = false from bne_self_eq_false x.1]
        rw [List.filter_eq_self.mpr hall]
        simp
      · have hax : (a.1 != x.1) = true := by
          refine bne_iff_ne.mpr fun he => ha1 ?_
          rw [he]
          exact List.mem_map_of_mem Prod.fst hxt
        rw [List.filter_cons, hax]
        simp only [if_true, List.length_cons]
        have := ih ht hxt
        omega

theorem foldl_filter_sublist (l : List (String × CacheEntry)) :
    ∀ c : List (String × CacheEntry),
    List.Sublist
      (l.foldl (fun acc p => acc.filter (fun q => q.1 != p.1)) c) c := by
  induction l with
  | nil => intro c; exact List.Sublist.refl c
  | cons p t ih =>
      intro c
      simp only [List.foldl_cons]
      exact (ih _).trans (List.filter_sublist c)

theorem foldl_filter_length (l : List (String × CacheEntry)) :
    ∀ c : List (String × CacheEntry),
    (c.map Prod.fst).Nodup → (l.map Prod.fst).Nodup →
    (∀ p ∈ l, p ∈ c) →
    (l.foldl (fun acc p => acc.filter (fun q => q.1 != p.1)) c).length
        + l.length = c.length := by
  induction l with
  | nil => intro c _ _ _; simp
  | cons p t ih =>
      intro c hc hl hsub
      simp only [List.foldl_cons, List.length_cons]
      have hpc : p ∈ c := hsub p (List.mem_cons_self p t)
      have hstep := filter_length_of_mem c p hc hpc
      have hc' : ((c.filter (fun q => q.1 != p.1)).map Prod.fst).Nodup :=
        hc.sublist ((List.filter_sublist c).map Prod.fst)
      rw [List.map_cons] at hl
      have hl' : (t.map Prod.fst).Nodup := (List.nodup_cons.mp hl).2
      have hp1 : p.1 ∉ t.map Prod.fst := (List.nodup_cons.mp hl).1
      have hsub' : ∀ q ∈ t, q ∈ c.filter (fun q => q.1 != p.1) := by
        intro q hq
        have hqc : q ∈ c := hsub q (List.mem_cons_of_mem p hq)
        have hq1 : (q.1 != p.1) = true := by
          refine bne_iff_ne.mpr fun he => hp1 ?_
          rw [← he]
          exact List.mem_map_of_mem Prod.fst hq
        exact List.mem_filter.mpr ⟨hqc, hq1⟩
      have := ih _ hc' hl' hsub'
      omega

theorem foldl_filter_mem (l : List (String × CacheEntry)) :
    ∀ (c : List (String × CacheEntry)) (p : String × CacheEntry),
    p ∈ c → (∀ o ∈ l, o.1 ≠ p.1) →
    p ∈ l.foldl (fun acc o => acc.filter (fun q => q.1 != o.1)) c := by
  induction l with
  | nil => intro c p hp _; simpa using hp
  | cons o t ih =>
      intro c p hp hno
      simp only [List.foldl_cons]
      refine ih _ p ?_ fun o' ho' => hno o' (List.mem_cons_of_mem o ho')
      refine List.mem_filter.mpr ⟨hp, bne_iff_ne.mpr fun he => ?_⟩
      exact hno o (List.mem_cons_self o t) he.symm

theorem foldl_filter_key_gone (l : List (String × CacheEntry)) :
    ∀ (c : List (String × CacheEntry)) (o : String × CacheEntry), o ∈ l →
    ∀ r ∈ l.foldl (fun acc o => acc.filter (fun q => q.1 != o.1)) c,
      r.1 ≠ o.1 := by
  induction l with
  | nil => intro c o ho; cases ho
  | cons o0 t ih =>
      intro c o ho r hr
      simp only [List.foldl_cons] at hr
      rcases List.mem_cons.mp ho with rfl | hot
      · have hrc : r ∈ c.filter (fun q => q.1 != o.1) :=
          (foldl_filter_sublist t _).subset hr
        exact bne_iff_ne.mp (List.mem_filter.mp hrc).2
      · exact ih _ o hot r hr

theorem key_inj (c : List (String × CacheEntry))
    (hnd : (c.map Prod.fst).Nodup) (a b : String × CacheEntry)
    (ha : a ∈ c) (hb : b ∈ c) (hk : a.1 = b.1) : a = b := by
  induction c with
  | nil => cases ha
  | cons x t ih =>
      rw [List.map_cons] at hnd
      rcases List.nodup_cons.mp hnd with ⟨hx1, ht⟩
      rcases List.mem_cons.mp ha with rfl | hat
      · rcases List.mem_cons.mp hb with rfl | hbt
        · rfl
        · refine absurd ?_ hx1
          rw [hk]
          exact List.mem_map_of_mem Prod.fst hbt
      · rcases List.mem_cons.mp hb with rfl | hbt
        · refine absurd ?_ hx1
          rw [← hk]
          exact List.mem_map_of_mem Prod.fst hat
        · exact ih ht hat hbt

theorem tsLe_total (p q : String × CacheEntry) : tsLe p q || tsLe q p := by
  unfold tsLe
  rcases le_total p.2.timestamp q.2.timestamp with h | h <;> simp [h]

theorem tsLe_trans (p q r : String × CacheEntry)
    (h1 : tsLe p q = true) (h2 : tsLe q r = true) : tsLe p r = true := by
  unfold tsLe at *
  simp only [decide_eq_true_eq] at *
  exact le_trans h1 h2

/-- Claim C5: when a put makes the cache exceed 100 entries, the
    oldest-by-timestamp entries are evicted down to exactly 100: the
    result has exactly 100 entries and every evicted entry carries a
    timestamp no larger than that of every surviving entry.  The
    duplicate-free key hypothesis is the invariant a Python dict holds by
    construction. -/
theorem cachePut_eviction (cache : List (String × CacheEntry)) (k : String)
    (e : CacheEntry)
    (hnd : ((insertCache cache k e).map Prod.fst).Nodup)
    (hlen : 100 < (insertCache cache k e).length) :
    (cachePut cache k e).length = 100
    ∧ ∀ p ∈ insertCache cache k e, p ∉ cachePut cache k e →
        ∀ q ∈ cachePut cache k e, p.2.timestamp ≤ q.2.timestamp := by
  have hput : cachePut cache k e
      = ((sortLe tsLe (insertCache cache k e)).take
            ((insertCache cache k e).length - 100)).foldl
          (fun acc p => acc.filter fun q => q.1 != p.1)
          (insertCache cache k e) := by
    unfold cachePut
    rw [if_pos hlen]
  have hperm : List.Perm (sortLe tsLe (insertCache cache k e))
      (insertCache cache k e) := sortLe_perm tsLe _
  have hsortnd : ((sortLe tsLe (insertCache cache k e)).map Prod.fst).Nodup :=
    (hperm.map Prod.fst).nodup_iff.mpr hnd
  have holdsub : List.Sublist
      ((sortLe tsLe (insertCache cache k e)).take
        ((insertCache cache k e).length - 100))
      (sortLe tsLe (insertCache cache k e)) := List.take_sublist _ _
  have holdnd := hsortnd.sublist (holdsub.map Prod.fst)
  have holdmem : ∀ p ∈ (sortLe tsLe (insertCache cache k e)).take
      ((insertCache cache k e).length - 100), p ∈ insertCache cache k e :=
    fun p hp => hperm.mem_iff.mp (holdsub.subset hp)
  have hlenold : ((sortLe tsLe (insertCache cache k e)).take
      ((insertCache cache k e).length - 100)).length
      = (insertCache cache k e).length - 100 := by
    rw [List.length_take]
    have := hperm.length_eq
    omega
  constructor
  · rw [hput]
    have := foldl_filter_length _ _ hnd holdnd holdmem
    omega
  · intro p hp hpnot q hq
    rw [hput] at hpnot hq
    have hqc : q ∈ insertCache cache k e :=
      (foldl_filter_sublist _ _).subset hq
    have hex : ∃ o ∈ (sortLe tsLe (insertCache cache k e)).take
        ((insertCache cache k e).length - 100), o.1 = p.1 := by
      by_contra hno
      push_neg at hno
      exact hpnot (foldl_filter_mem _ _ p hp fun o ho => hno o ho)
    rcases hex with ⟨o, ho, hok⟩
    have hoc : o ∈ insertCache cache k e := holdmem o ho
    have hop : o = p := key_inj _ hnd o p hoc hp hok
    have hqnot : q ∉ (sortLe tsLe (insertCache cache k e)).take
        ((insertCache cache k e).length - 100) := by
      intro hqo
      exact (foldl_filter_key_gone _ _ q hqo q hq) rfl
    have hqsorted : q ∈ sortLe tsLe (insertCache cache k e) :=
      hperm.mem_iff.mpr hqc
    have hqdrop : q ∈ (sortLe tsLe (insertCache cache k e)).drop
        ((insertCache cache k e).length - 100) := by
      have hsplit := (List.take_append_drop
        ((insertCache cache k e).length - 100)
        (sortLe tsLe (insertCache cache k e)))
      rw [← hsplit] at hqsorted
      rcases List.mem_append.mp hqsorted with h | h
      · exact absurd h hqnot
      · exact h
    have hpw := sortLe_pairwise tsLe tsLe_total tsLe_trans
      (insertCache cache k e)
    rw [← List.take_append_drop ((insertCache cache k e).length - 100)
      (sortLe tsLe (insertCache cache k e))] at hpw
    have hts := (List.pairwise_append.mp hpw).2.2 o ho q hqdrop
    rw [hop] at hts
    simpa [tsLe] using hts

/-- Witness for C5: a full 100-entry cache with increasing timestamps
    receives a 101st distinct key; the theorem delivers eviction down to
    exactly 100. -/
theorem cachePut_eviction_witness :
    ((insertCache exampleCache "new" ⟨200, "r"⟩).map Prod.fst).Nodup
    ∧ 100 < (insertCache exampleCache "new" ⟨200, "r"⟩).length
    ∧ (cachePut exampleCache "new" ⟨200, "r"⟩).length = 100 := by
  have h1 : ((insertCache exampleCache "new" ⟨200, "r"⟩).map Prod.fst).Nodup := by
    decide
  have h2 : 100 < (insertCache exampleCache "new" ⟨200, "r"⟩).length := by
    decide
  exact ⟨h1, h2, (cachePut_eviction exampleCache "new" ⟨200, "r"⟩ h1 h2).1⟩

end RatSemireducible

end Samarth
